import Mathlib

/-!
Verification of the Stark voice proxy (`src/proxy/server.js`) against its
specification.  The JavaScript service is shallowly embedded: JS `Map`s become
insertion-ordered association lists, `Date.now()` becomes an explicit `Nat`
clock threaded through each turn, `Math.random()` draws become an oracle list
of naturals, and the upstream SSE stream becomes a list of timed items.  All
definitions are executable so that theorems can be instantiated on concrete
inputs.
-/

set_option maxRecDepth 8192

namespace StarkProxy

/- ### Association-list model of a JS `Map` (insertion ordered). -/

/-- Lookup: first entry with the given key, like `Map.get`. -/
def mapGet {β : Type} : List (String × β) → String → Option β
  | [], _ => none
  | p :: t, k => if p.1 == k then some p.2 else mapGet t k

/-- JS `Map.set`: replace the entry in place if the key exists, else append. -/
def mapSet {β : Type} : List (String × β) → String → β → List (String × β)
  | [], k, v => [(k, v)]
  | p :: t, k, v => if p.1 == k then (k, v) :: t else p :: mapSet t k v

/-- JS `Map.delete`: drop the entry with the given key. -/
def mapDelete {β : Type} : List (String × β) → String → List (String × β)
  | [], _ => []
  | p :: t, k => if p.1 == k then mapDelete t k else p :: mapDelete t k

/- ### Small string helpers (substring search, used by keyword matching). -/

/-- Whether the first list is an initial segment of the second. -/
def listStartsWith : List Char → List Char → Bool
  | [], _ => true
  | _ :: _, [] => false
  | a :: as, b :: bs => a == b && listStartsWith as bs

/-- JS `String.prototype.includes`: `pat` occurs contiguously in `s`. -/
def strContains (s pat : String) : Bool :=
  (List.range (s.data.length + 1)).any (fun i => listStartsWith pat.data (s.data.drop i))

/-- JS `String.prototype.startsWith` for the whole string. -/
def strStarts (s pre : String) : Bool :=
  listStartsWith pre.data s.data

/- ### Configuration constants (`src/proxy/server.js` lines 34-39). -/

def VOICE_HINT : String :=
  " [Voice call — keep response under 3-4 sentences. Do NOT start with filler like 'Let me check' or 'Sure thing' — jump straight to the answer.]"

def DEBOUNCE_MS : Nat := 1500
def KEEPALIVE_INTERVAL_MS : Nat := 10000
def MIN_BUFFER_SPEECH_MS : Nat := 2500
def DEDUP_WINDOW_MS : Nat := 15000
def MAX_CONVERSATIONS : Nat := 50

/-- ASCII whitespace test used by the string helpers below. -/
def chIsWs (c : Char) : Bool := c == ' ' || c == '\t' || c == '\n' || c == '\r'

/-- JS `String.prototype.trim` (whitespace at both ends removed). -/
def strTrim (s : String) : String :=
  String.mk (((s.data.dropWhile chIsWs).reverse.dropWhile chIsWs).reverse)

/-- JS `String.prototype.slice(n)` on character counts. -/
def strDrop (s : String) (n : Nat) : String := String.mk (s.data.drop n)

/-- JS `String.prototype.slice(0, n)` on character counts. -/
def strTake (s : String) (n : Nat) : String := String.mk (s.data.take n)

/-- JS `String.prototype.toLowerCase` (ASCII case folding). -/
def strLower (s : String) : String := String.mk (s.data.map Char.toLower)

/-- Concatenation of a list of strings. -/
def concatAll : List String → String
  | [] => ""
  | s :: t => s ++ concatAll t

/-- JS `Array.prototype.join(sep)`. -/
def joinSep (sep : String) : List String → String
  | [] => ""
  | [s] => s
  | s :: t => s ++ sep ++ joinSep sep t

/- ### Contextual buffer phrases (`PHRASE_CATEGORIES`, lines 46-141). -/

structure PhraseCat where
  keywords : List String
  initial : List String
  keepAlive : List String
deriving DecidableEq

def fallbackCat : PhraseCat :=
  { keywords := []
    initial := ["Let me work on that... ", "One sec... ", "On it... ", "Let me figure this out... ", "Give me a moment... ", "Hmm... ", "Alright... "]
    keepAlive := ["Still working on it... ", "Bear with me... ", "Almost there... ", "Just a bit longer... ", "Hang tight... "] }

def PHRASE_CATEGORIES : List (String × PhraseCat) :=
  [ ("email",
     { keywords := ["email", "inbox", "mail", "unread", "send an email", "reply to"]
       initial := ["Checking your inbox... ", "Pulling up your emails... ", "Let me look at your mail... "]
       keepAlive := ["Going through your emails... ", "Still reading through them... ", "Almost done checking... "] }),
    ("calendar",
     { keywords := ["calendar", "schedule", "meeting", "appointment", "event", "free time", "busy", "availability"]
       initial := ["Checking your schedule... ", "Pulling up your calendar... ", "Looking at your agenda... "]
       keepAlive := ["Going through your events... ", "Checking the details... ", "One moment, still looking... "] }),
    ("weather",
     { keywords := ["weather", "forecast", "temperature", "rain", "sunny", "cold", "hot outside"]
       initial := ["Checking the forecast... ", "Let me look at the weather... "]
       keepAlive := ["Still pulling the data... ", "Almost there... "] }),
    ("whatsapp",
     { keywords := ["whatsapp", "whats app"]
       initial := ["Checking your WhatsApp... ", "Pulling up your chats... ", "Let me look at your messages... "]
       keepAlive := ["Going through your conversations... ", "Still reading... ", "Almost done... "] }),
    ("messaging",
     { keywords := ["message", "messages", "telegram", "slack", "discord", "notification", "notifications", "dm", "chat"]
       initial := ["Checking your messages... ", "Let me pull those up... ", "Looking at your notifications... "]
       keepAlive := ["Going through them... ", "Still reading... ", "Almost done... "] }),
    ("twitter",
     { keywords := ["twitter", "tweet", "x.com", "timeline", "trending", "post on x"]
       initial := ["Checking your timeline... ", "Pulling up X... ", "Let me look at that... "]
       keepAlive := ["Going through the feed... ", "Still looking... ", "Almost there... "] }),
    ("tasks",
     { keywords := ["task", "tasks", "todo", "to-do", "things", "reminder", "reminders", "due"]
       initial := ["Checking your tasks... ", "Pulling up your to-dos... ", "Let me look at that... "]
       keepAlive := ["Going through your list... ", "Still checking... ", "Almost done... "] }),
    ("health",
     { keywords := ["health", "whoop", "sleep", "recovery", "heart rate", "hrv", "strain", "workout", "steps", "fitness"]
       initial := ["Checking your health data... ", "Pulling up your stats... ", "Let me look at your recovery... "]
       keepAlive := ["Going through the data... ", "Still pulling your metrics... ", "Almost there... "] }),
    ("crypto",
     { keywords := ["crypto", "bitcoin", "btc", "ethereum", "eth", "hyperliquid", "portfolio", "position", "pnl", "trading", "price"]
       initial := ["Checking the markets... ", "Pulling up your positions... ", "Looking at the numbers... "]
       keepAlive := ["Still crunching the data... ", "Going through your portfolio... ", "Almost done... "] }),
    ("search",
     { keywords := ["search", "look up", "find", "google", "what is", "who is", "look for", "research"]
       initial := ["Let me look that up... ", "Searching for that... ", "Let me find out... "]
       keepAlive := ["Still searching... ", "Going through the results... ", "Almost there... "] }),
    ("code",
     { keywords := ["code", "bug", "error", "deploy", "build", "commit", "repo", "pull request", "github", "merge"]
       initial := ["Looking into that... ", "Checking the repo... ", "Let me pull that up... "]
       keepAlive := ["Still going through the code... ", "Digging into the details... ", "Almost got it... "] }),
    ("notes",
     { keywords := ["note", "notes", "write down", "jot", "obsidian", "save this", "log this"]
       initial := ["On it... ", "Writing that down... ", "Let me save that... "]
       keepAlive := ["Still working on it... ", "Almost done... "] }),
    ("browser",
     { keywords := ["browser", "open", "website", "url", "link", "page", "tab", "chrome"]
       initial := ["Opening that up... ", "Let me pull that page... ", "On it... "]
       keepAlive := ["Still loading... ", "Almost there... "] }),
    ("memory",
     { keywords := ["remember", "last time", "did i", "have i", "history", "before", "earlier", "yesterday", "forgot"]
       initial := ["Let me think back... ", "Checking my memory... ", "Let me recall... "]
       keepAlive := ["Going through our history... ", "Looking further back... ", "Almost there... "] }),
    ("file",
     { keywords := ["file", "document", "folder", "download", "upload", "pdf", "read this"]
       initial := ["Grabbing that file... ", "Looking for it... ", "One sec, pulling it up... "]
       keepAlive := ["Still looking through files... ", "Almost found it... "] }),
    ("music",
     { keywords := ["song", "music", "play", "spotify", "listen"]
       initial := ["Let me find that... ", "Looking it up... "]
       keepAlive := ["Still searching... ", "Almost there... "] }),
    ("image",
     { keywords := ["image", "photo", "picture", "generate", "draw", "create an image", "camera", "screenshot"]
       initial := ["Working on that visual... ", "Generating that for you... ", "Let me create that... "]
       keepAlive := ["Still rendering... ", "Almost done with the image... ", "Coming together... "] }),
    ("voice",
     { keywords := ["say", "read aloud", "speak", "pronounce", "voice"]
       initial := ["Getting that ready... ", "One moment... "]
       keepAlive := ["Almost ready... "] }),
    ("fallback", fallbackCat) ]

/-- The function `matchCategory(text)` (lines 143-150): lowercase the text and return the
first non-fallback category with a keyword substring hit, else the fallback. -/
def matchCategory (text : String) : PhraseCat :=
  let lower := strLower text
  match PHRASE_CATEGORIES.find?
      (fun p => p.1 != "fallback" && p.2.keywords.any (fun kw => strContains lower kw)) with
  | some p => p.2
  | none => fallbackCat

/-- The `do idx = floor(random*len) while (idx == lastInitialIdx && len > 1)`
loop of `getContextualPhrases` (lines 157-159).  The oracle `rands` lists the
successive random draws; the loop keeps drawing until the index escapes the
previous one.  `none` models the (probability-zero) event that the finite
oracle never escapes. -/
def pickIdx (lastIdx : Int) (len : Nat) : List Nat → Option Nat
  | [] => none
  | r :: rest =>
    let idx := r % len
    if (idx : Int) == lastIdx && len > 1 then pickIdx lastIdx len rest else some idx

/-- Result of one `getContextualPhrases` call: the chosen initial phrase, the
category's keep-alive list, and the chosen index (the new `lastInitialIdx`). -/
structure PickResult where
  initial : String
  keepAlive : List String
  idx : Nat
deriving DecidableEq

/-- The function `getContextualPhrases(userText)` (lines 154-162) with the process-global
`lastInitialIdx` and the random draws passed explicitly. -/
def getContextualPhrases (lastIdx : Int) (rands : List Nat) (userText : String) :
    Option PickResult :=
  let cat := matchCategory userText
  match pickIdx lastIdx cat.initial.length rands with
  | some idx => some { initial := cat.initial.getD idx "", keepAlive := cat.keepAlive, idx := idx }
  | none => none

/- ### Request body, fingerprint, dedup cache, conversation log. -/

/-- One chat message of the request body. -/
structure Msg where
  role : String
  content : String
deriving DecidableEq

/-- The fields of the POST body the proxy reads (`user`, `messages`).  Other
fields are passed through untouched and are not modeled. -/
structure Body where
  user : Option String
  messages : List Msg
deriving DecidableEq

/-- The function `getSessionId(body)` (lines 173-175): `body.user || "default"`. -/
def getSessionId (b : Body) : String :=
  match b.user with
  | some u => if u == "" then "default" else u
  | none => "default"

/-- The lookup `[...messages].reverse().find(m => m.role === "user")` (line 259). -/
def lastUserMsg (msgs : List Msg) : Option Msg :=
  msgs.reverse.find? (fun m => m.role == "user")

/-- The value `(lastUserMsg?.content || "").trim()` (line 260). -/
def userTextOf (b : Body) : String :=
  strTrim (((lastUserMsg b.messages).map (·.content)).getD "")

/-- The silence filter condition (line 263): empty, `"..."`, the single
ellipsis character, or fewer than 3 characters. -/
def silenceCond (u : String) : Bool :=
  u == "" || u == "..." || u == "…" || u.data.length < 3

/-- The mutation `lastUserMsg.content = userText + VOICE_HINT` (line 315).  The spread in
line 259 copies the array but shares the message objects, so the mutation
lands inside `body.messages`: the last user-role message's content is
replaced. -/
def replaceFirstUser : List Msg → String → List Msg
  | [], _ => []
  | m :: t, c => if m.role == "user" then { m with content := c } :: t else m :: replaceFirstUser t c

/-- Replace the content of the last user-role message. -/
def setLastUserContent (msgs : List Msg) (c : String) : List Msg :=
  (replaceFirstUser msgs.reverse c).reverse

/-- The function `getRequestHash(messages)` (lines 177-180): the last three messages'
`role:content[:200]` tuples joined with `|`. -/
def getRequestHash (msgs : List Msg) : String :=
  let tail := msgs.drop (msgs.length - 3)
  joinSep "|" (tail.map (fun m => m.role ++ ":" ++ strTake m.content 200))

/-- The fingerprint a non-silent turn computes at line 318: the hash is taken
after the voice hint was spliced into the last user message. -/
def turnHash (b : Body) : String :=
  getRequestHash (setLastUserContent b.messages (userTextOf b ++ VOICE_HINT))

/-- One dedup cache entry: `{ response, timestamp }` (line 189). -/
structure CacheEntry where
  response : String
  timestamp : Nat
deriving DecidableEq

/-- The function `getCachedResponse(hash)` (lines 182-186) at clock `now`. -/
def getCachedResponse (cache : List (String × CacheEntry)) (hash : String) (now : Nat) :
    Option String :=
  match mapGet cache hash with
  | some e => if now - e.timestamp < DEDUP_WINDOW_MS then some e.response else none
  | none => none

/-- The function `cacheResponse(hash, response)` (lines 188-194): insert with the current
timestamp, then evict every entry older than `2 * DEDUP_WINDOW_MS`. -/
def cacheResponse (cache : List (String × CacheEntry)) (hash response : String) (now : Nat) :
    List (String × CacheEntry) :=
  (mapSet cache hash { response := response, timestamp := now }).filter
    (fun p => !(now - p.2.timestamp > DEDUP_WINDOW_MS * 2))

/-- JS truthiness of the `string | null` returned by `getCachedResponse`,
as tested by `if (cached)` at line 320. -/
def truthyOpt : Option String → Bool
  | some s => !(s == "")
  | none => false

/-- One conversation-log line: `{ role, content, timestamp }` (line 200). -/
structure ConvEntry where
  role : String
  content : String
  timestamp : Nat
deriving DecidableEq

/-- One per-session conversation record (line 198). -/
structure Conv where
  messages : List ConvEntry
  startedAt : Nat
deriving DecidableEq

/-- The function `logMessage(sessionId, role, content)` (lines 196-206): lazily create the
session record, append the entry, and evict the oldest session when the map
exceeds `MAX_CONVERSATIONS`. -/
def logMessage (conv : List (String × Conv)) (sessionId role content : String) (now : Nat) :
    List (String × Conv) :=
  let conv1 := if (mapGet conv sessionId).isSome then conv
               else mapSet conv sessionId { messages := [], startedAt := now }
  let rec0 := (mapGet conv1 sessionId).getD { messages := [], startedAt := now }
  let conv2 := mapSet conv1 sessionId
    { rec0 with messages := rec0.messages ++ [{ role := role, content := content, timestamp := now }] }
  if conv2.length > MAX_CONVERSATIONS then
    match conv2.head? with
    | some p => mapDelete conv2 p.1
    | none => conv2
  else conv2

/- ### SSE frames written to the client. -/

/-- A frame written on the HTTP response:
* `chunk id content` — a proxy-generated `sseChunk` (lines 208-215);
* `fwd payload` — a verbatim upstream payload, written as
  `data: <payload>\n\n` (line 419);
* `raw s` — a malformed upstream line forwarded verbatim (line 421);
* `done` — the terminal `data: [DONE]\n\n` of `sseDone` (lines 223-228). -/
inductive Frame where
  | chunk (id : String) (content : String)
  | fwd (payload : String)
  | raw (s : String)
  | done
deriving DecidableEq

/-- Whether a frame reads `data: [DONE]` on the wire.  A `chunk` renders as a
JSON object and can never read as the sentinel. -/
def isDoneFrame : Frame → Bool
  | .done => true
  | .fwd p => p == "[DONE]"
  | .raw s => s == "data: [DONE]"
  | .chunk _ _ => false

/-- The three headers of `sseHeaders` (lines 217-221). -/
def sseBaseHeaders : List (String × String) :=
  [("Content-Type", "text/event-stream"), ("Cache-Control", "no-cache"),
   ("Connection", "keep-alive")]

/-- Headers of a streaming (buffer-phrase) turn: line 330 adds
`X-Accel-Buffering: no` after `sseHeaders`. -/
def sseStreamHeaders : List (String × String) :=
  sseBaseHeaders ++ [("X-Accel-Buffering", "no")]

/- ### The upstream SSE stream (lines 386-424). -/

/-- One line of the upstream stream after newline splitting.  `text` is the
raw line; `json` abstracts `JSON.parse(payload)` followed by
`chunk.choices?.[0]?.delta?.content`: `none` means the parse threw, `some c`
means it parsed with `c` as the (possibly absent) delta content. -/
structure UpLine where
  text : String
  json : Option (Option String)
deriving DecidableEq

/-- An event seen by the streaming phase: an upstream line with its arrival
time, or a tick of the 10 s keep-alive interval timer (lines 349-360). -/
inductive StreamItem where
  | line (t : Nat) (l : UpLine)
  | ka (t : Nat)
deriving DecidableEq

/-- The content delta a line contributes to `llmContent`, if any: the line
must be non-blank, start with `data: `, not be the `[DONE]` sentinel, parse,
and carry truthy content (lines 398-416). -/
def lineDelta (l : UpLine) : Option String :=
  let trimmed := strTrim l.text
  if trimmed == "" || !(strStarts trimmed "data: ") then none
  else if strDrop trimmed 6 == "[DONE]" then none
  else match l.json with
    | some (some c) => if c == "" then none else some c
    | _ => none

/-- Whether a line carries a truthy content delta. -/
def lineTruthy (l : UpLine) : Bool := (lineDelta l).isSome

/-- The ordered truthy content deltas of a stream, per the specification's
words: "the concatenation of the upstream LLM's content deltas, in arrival
order". -/
def contentDeltas : List StreamItem → List String
  | [] => []
  | .ka _ :: rest => contentDeltas rest
  | .line _ l :: rest =>
    match lineDelta l with
    | some c => c :: contentDeltas rest
    | none => contentDeltas rest

/-- Mutable state of the streaming loop: the clock `now` (advanced by the
smart-hold sleep), `lastChunkTime`, `firstChunkMs`, the keep-alive round-robin
counter, the accumulated `llmContent`, the timed frames written so far, and a
ghost observer `fce` recording when the first truthy content delta was
forwarded. -/
structure FoldSt where
  now : Nat
  lastChunkTime : Nat
  firstChunkMs : Nat
  kaIdx : Nat
  llm : String
  out : List (Nat × Frame)
  fce : Option Nat
deriving DecidableEq

/-- Initial stream state right after the buffer phrase was written at time
`bufT` (`start = Date.now(); lastChunkTime = Date.now()`, lines 342-345). -/
def foldInit (bufT : Nat) : FoldSt :=
  { now := bufT, lastChunkTime := bufT, firstChunkMs := 0, kaIdx := 0,
    llm := "", out := [], fce := none }

/-- One tick of the keep-alive interval timer (lines 349-360): emit the next
round-robin phrase only if more than `KEEPALIVE_INTERVAL_MS - 1000` has
passed since the last outgoing chunk. -/
def stepKa (kap : List String) (fs : FoldSt) (t : Nat) : FoldSt :=
  let now := max fs.now t
  if now - fs.lastChunkTime > KEEPALIVE_INTERVAL_MS - 1000 then
    { fs with
      now := now
      lastChunkTime := now
      kaIdx := fs.kaIdx + 1
      out := fs.out ++ [(now, Frame.chunk ("chatcmpl-keepalive-" ++ toString now)
        (kap.getD (fs.kaIdx % kap.length) ""))] }
  else { fs with now := now }

/-- Processing of one upstream line (lines 398-423): skip blanks/non-data
lines and the `[DONE]` sentinel, forward malformed lines verbatim, and for
parsed chunks apply the smart hold on the first truthy content delta before
accumulating and forwarding. -/
def stepLine (bufT : Nat) (fs : FoldSt) (t : Nat) (l : UpLine) : FoldSt :=
  let now := max fs.now t
  let trimmed := strTrim l.text
  if trimmed == "" || !(strStarts trimmed "data: ") then { fs with now := now }
  else
    let payload := strDrop trimmed 6
    if payload == "[DONE]" then { fs with now := now }
    else match l.json with
      | none => { fs with now := now, out := fs.out ++ [(now, Frame.raw trimmed)] }
      | some c =>
        if truthyOpt c then
          let cs := c.getD ""
          let held :=
            if fs.firstChunkMs == 0 then
              let elapsed := now - fs.lastChunkTime
              if elapsed < MIN_BUFFER_SPEECH_MS then now + (MIN_BUFFER_SPEECH_MS - elapsed)
              else now
            else now
          let fcm := if fs.firstChunkMs == 0 then now - bufT else fs.firstChunkMs
          { fs with
            now := held
            lastChunkTime := held
            firstChunkMs := fcm
            llm := fs.llm ++ cs
            out := fs.out ++ [(held, Frame.fwd payload)]
            fce := match fs.fce with | none => some held | some x => some x }
        else
          { fs with now := now, out := fs.out ++ [(now, Frame.fwd payload)] }

/-- The streaming loop over all items. -/
def streamFold (bufT : Nat) (kap : List String) : List StreamItem → FoldSt → FoldSt
  | [], fs => fs
  | .line t l :: rest, fs => streamFold bufT kap rest (stepLine bufT fs t l)
  | .ka t :: rest, fs => streamFold bufT kap rest (stepKa kap fs t)

/- ### Server state and the per-turn pipeline (lines 164-169, 254-445). -/

/-- The four process-wide state maps (lines 166-169) plus the process-global
`lastInitialIdx` (line 152).  `inFlight` stores the turn's `AbortController`
as a numeric identity token so pointer comparison (line 432) is equality of
tokens; `pending` stores a tag for the armed debounce resolver. -/
structure ServerState where
  inFlight : List (String × Nat)
  pending : List (String × Nat)
  recentRequests : List (String × CacheEntry)
  conversations : List (String × Conv)
  lastInitialIdx : Int
deriving DecidableEq

/-- Actions of a turn's synchronous prologue, recorded in execution order. -/
inductive ProAction where
  | logUser (content : String)
  | abortFetch (controller : Nat)
  | supersedePending (tag : Nat)
  | armDebounce (tag : Nat)
deriving DecidableEq

/-- Result of the synchronous prologue of a non-silent turn. -/
structure ProResult where
  state : ServerState
  aborted : List (Nat × Nat)
  actions : List ProAction
deriving DecidableEq

/-- The synchronous prologue of a non-silent turn at time `t` (lines
270-294): log the user message, abort and clear any in-flight fetch for the
session, supersede any pending debounce, then arm this turn's debounce
(tagged `t`). -/
def prologue (st : ServerState) (sessionId uText : String) (t : Nat) : ProResult :=
  let conv2 := logMessage st.conversations sessionId "user" uText t
  let abortPart : List (String × Nat) × List (Nat × Nat) × List ProAction :=
    match mapGet st.inFlight sessionId with
    | some c => (mapDelete st.inFlight sessionId, [(t, c)], [ProAction.abortFetch c])
    | none => (st.inFlight, [], [])
  let pendPart : List (String × Nat) × List ProAction :=
    match mapGet st.pending sessionId with
    | some tag => (mapDelete st.pending sessionId, [ProAction.supersedePending tag])
    | none => (st.pending, [])
  { state :=
      { st with
        conversations := conv2
        inFlight := abortPart.1
        pending := mapSet pendPart.1 sessionId t }
    aborted := abortPart.2.1
    actions := ProAction.logUser uText :: abortPart.2.2 ++ pendPart.2 ++ [ProAction.armDebounce t] }

/-- The upstream request issued at line 364, as observable data: the time it
was issued, the transformed message list, and the rewritten model field. -/
structure Fetch where
  time : Nat
  messages : List Msg
  model : String
deriving DecidableEq

/-- Oracle for what the upstream does once fetched:
* `fetchThrow ka t` — `fetch` itself rejects at time `t` (network failure or
  abort); `ka` lists the keep-alive timer ticks before that;
* `httpError ka t textOk` — a non-2xx response at time `t`; `textOk = false`
  means `upstreamRes.text()` itself threw (landing in the catch block);
* `stream items t ok` — a 2xx body whose lines and timer ticks are `items`;
  `ok = false` means `reader.read()` threw after the listed items. -/
inductive UpstreamOutcome where
  | fetchThrow (ka : List Nat) (t : Nat)
  | httpError (ka : List Nat) (t : Nat) (textOk : Bool)
  | stream (items : List StreamItem) (t : Nat) (ok : Bool)
deriving DecidableEq

/-- Oracles of a turn's continuation after the debounce settles. -/
structure ContEnv where
  rands : List Nat
  controllerId : Nat
  upstream : UpstreamOutcome
  interference : Option (Option Nat)
deriving DecidableEq

/-- The in-flight cleanup executed on every terminal path of a fetched turn
(lines 381, 432, 442): delete the session's entry only if it still stores
this turn's controller.  `interference` models a concurrent newer turn having
replaced (`some (some c)`) or removed (`some none`) the entry during one of
this turn's suspension points. -/
def cleanupInFlight (infl : List (String × Nat)) (sessionId : String) (controller : Nat)
    (interference : Option (Option Nat)) : List (String × Nat) :=
  let infl2 := match interference with
    | none => infl
    | some none => mapDelete infl sessionId
    | some (some c) => mapSet infl sessionId c
  if mapGet infl2 sessionId == some controller then mapDelete infl2 sessionId else infl2

/-- Everything observable about one handled turn: response headers, the timed
frames written, the final server state, the upstream fetches issued, the
controllers aborted (with times), the prologue action log, whether the
response stream was closed, and the ghost first-content-forward time. -/
structure TurnResult where
  headers : List (String × String)
  events : List (Nat × Frame)
  state : ServerState
  fetches : List Fetch
  aborted : List (Nat × Nat)
  actions : List ProAction
  closed : Bool
  fce : Option Nat
deriving DecidableEq

/-- The streaming part of a turn, from the buffer phrase write at `tSet`
(lines 328-443).  `st` already has this turn's debounce entry removed. -/
def runUpstream (st : ServerState) (sessionId reqHash : String) (msgs2 : List Msg)
    (tSet : Nat) (env : ContEnv) (pick : PickResult) : TurnResult :=
  let bufEvent := (tSet, Frame.chunk ("chatcmpl-buf-" ++ toString tSet) pick.initial)
  let stReg : ServerState :=
    { st with
      lastInitialIdx := (pick.idx : Int)
      inFlight := mapSet st.inFlight sessionId env.controllerId }
  let fetch : Fetch := { time := tSet, messages := msgs2, model := "openclaw:main" }
  match env.upstream with
  | .fetchThrow ka tEnd =>
    let fs := streamFold tSet pick.keepAlive (ka.map StreamItem.ka) (foldInit tSet)
    { headers := sseStreamHeaders
      events := bufEvent :: fs.out ++ [(tEnd, Frame.done)]
      state := { stReg with
        inFlight := cleanupInFlight stReg.inFlight sessionId env.controllerId env.interference }
      fetches := [fetch]
      aborted := []
      actions := []
      closed := true
      fce := none }
  | .httpError ka tEnd textOk =>
    let fs := streamFold tSet pick.keepAlive (ka.map StreamItem.ka) (foldInit tSet)
    let tailEvents :=
      if textOk then
        [(tEnd, Frame.chunk ("chatcmpl-err-" ++ toString tEnd) "Sorry, having trouble connecting. "),
         (tEnd, Frame.done)]
      else [(tEnd, Frame.done)]
    { headers := sseStreamHeaders
      events := bufEvent :: fs.out ++ tailEvents
      state := { stReg with
        inFlight := cleanupInFlight stReg.inFlight sessionId env.controllerId env.interference }
      fetches := [fetch]
      aborted := []
      actions := []
      closed := true
      fce := none }
  | .stream items tEnd ok =>
    let fs := streamFold tSet pick.keepAlive items (foldInit tSet)
    let stDone : ServerState :=
      if ok then
        { stReg with
          recentRequests := cacheResponse stReg.recentRequests reqHash fs.llm tEnd
          conversations := logMessage stReg.conversations sessionId "assistant" fs.llm tEnd }
      else stReg
    { headers := sseStreamHeaders
      events := bufEvent :: fs.out ++ [(tEnd, Frame.done)]
      state := { stDone with
        inFlight := cleanupInFlight stDone.inFlight sessionId env.controllerId env.interference }
      fetches := [fetch]
      aborted := []
      actions := []
      closed := true
      fce := fs.fce }

/-- A turn's continuation once its debounce settled at `tSet` (lines
311-443): prepare the upstream body, check the dedup cache, and either replay
the cached response or stream from upstream. -/
def continueTurn (st : ServerState) (body : Body) (sessionId uText : String) (tSet : Nat)
    (env : ContEnv) : Option TurnResult :=
  let msgs2 := setLastUserContent body.messages (uText ++ VOICE_HINT)
  let reqHash := getRequestHash msgs2
  let cached := getCachedResponse st.recentRequests reqHash tSet
  if truthyOpt cached then
    some
      { headers := sseBaseHeaders
        events := [(tSet, Frame.chunk ("chatcmpl-dedup-" ++ toString tSet) (cached.getD ""))
                  , (tSet, Frame.done)]
        state := st
        fetches := []
        aborted := []
        actions := []
        closed := true
        fce := none }
  else
    match getContextualPhrases st.lastInitialIdx env.rands uText with
    | some pick => some (runUpstream st sessionId reqHash msgs2 tSet env pick)
    | none => none

/-- Oracles of a whole turn: its arrival time and whether (and when) a newer
request superseded its debounce wait. -/
structure TurnEnv where
  arrival : Nat
  supersededAt : Option Nat
  cont : ContEnv
deriving DecidableEq

/-- One full turn of the POST handler (lines 254-445). -/
def handleTurn (st : ServerState) (body : Body) (env : TurnEnv) : Option TurnResult :=
  let sessionId := getSessionId body
  let uText := userTextOf body
  if silenceCond uText then
    some
      { headers := sseBaseHeaders
        events := [(env.arrival, Frame.chunk ("chatcmpl-silence-" ++ toString env.arrival) " ")
                  , (env.arrival, Frame.done)]
        state := st
        fetches := []
        aborted := []
        actions := []
        closed := true
        fce := none }
  else
    let p := prologue st sessionId uText env.arrival
    match env.supersededAt with
    | some tSup =>
      some
        { headers := sseBaseHeaders
          events := [(tSup, Frame.chunk ("chatcmpl-superseded-" ++ toString tSup) " ")
                    , (tSup, Frame.done)]
          state := { p.state with pending := mapDelete p.state.pending sessionId }
          fetches := []
          aborted := p.aborted
          actions := p.actions
          closed := true
          fce := none }
    | none =>
      let st1 : ServerState := { p.state with pending := mapDelete p.state.pending sessionId }
      (continueTurn st1 body sessionId uText (env.arrival + DEBOUNCE_MS) env.cont).map
        (fun r => { r with aborted := p.aborted, actions := p.actions })

/- ### Two overlapping requests on one session (the debounce scenario). -/

/-- The observable outcome of two requests A and B on the same session. -/
structure PairResult where
  eventsA : List (Nat × Frame)
  headersA : List (String × String)
  eventsB : List (Nat × Frame)
  headersB : List (String × String)
  fetches : List Fetch
  aborted : List (Nat × Nat)
  actsA : List ProAction
  actsB : List ProAction
  state : ServerState
deriving DecidableEq

/-- Deterministic schedule of two non-silent POSTs to the same session where
the second arrives strictly inside the first one's 1500 ms debounce window
(`tA ≤ tB < tA + DEBOUNCE_MS`).  The event-loop order is then fixed:

1. at `tA`, A runs its synchronous prologue and suspends on its debounce;
2. at `tB`, B runs its prologue: it aborts any in-flight fetch (there is
   none from A, which never fetched), rejects A's debounce resolver, and arms
   its own; A's catch continuation then runs as a microtask: it deletes the
   session's pending entry (B's freshly armed one — B's timer itself is not
   cleared and still fires) and closes A's response with a space chunk and
   `[DONE]` (lines 296-307);
3. at `tB + DEBOUNCE_MS`, B's timer fires undisturbed and B continues.

Inputs outside this window (or with a silent text, or different sessions)
are outside the modeled scenario and return `none`. -/
def runPair (st0 : ServerState) (tA : Nat) (bodyA : Body) (tB : Nat) (bodyB : Body)
    (envB : ContEnv) : Option PairResult :=
  let sessionId := getSessionId bodyA
  let uA := userTextOf bodyA
  let uB := userTextOf bodyB
  if getSessionId bodyB != sessionId then none
  else if silenceCond uA || silenceCond uB then none
  else if !(decide (tA ≤ tB) && decide (tB < tA + DEBOUNCE_MS)) then none
  else
    let pA := prologue st0 sessionId uA tA
    let pB := prologue pA.state sessionId uB tB
    let stAfterACatch : ServerState :=
      { pB.state with pending := mapDelete pB.state.pending sessionId }
    let eventsA := [(tB, Frame.chunk ("chatcmpl-superseded-" ++ toString tB) " ")
                   , (tB, Frame.done)]
    let stAtBSettle : ServerState :=
      { stAfterACatch with pending := mapDelete stAfterACatch.pending sessionId }
    (continueTurn stAtBSettle bodyB sessionId uB (tB + DEBOUNCE_MS) envB).map
      (fun rB =>
        { eventsA := eventsA
          headersA := sseBaseHeaders
          eventsB := rB.events
          headersB := rB.headers
          fetches := rB.fetches
          aborted := pA.aborted ++ pB.aborted
          actsA := pA.actions
          actsB := pB.actions
          state := rB.state })


/- ### Derived definitions used by the verification. -/

/-- The server state a non-silent, non-superseded turn holds when its
debounce settles: the prologue has run and the turn's own pending entry was
removed (line 295). -/
def settledState (st : ServerState) (body : Body) (t : Nat) : ServerState :=
  { (prologue st (getSessionId body) (userTextOf body) t).state with
    pending := mapDelete (prologue st (getSessionId body) (userTextOf body) t).state.pending
      (getSessionId body) }

/-- Invariant of the streaming loop state: the clock never runs backwards
past `lastChunkTime`, the buffer write time bounds everything, any recorded
first-content forward time respects the smart hold, and `firstChunkMs` is
still zero while no content was forwarded. -/
def foldInv (bufT : Nat) (fs : FoldSt) : Prop :=
  bufT ≤ fs.lastChunkTime ∧ fs.lastChunkTime ≤ fs.now ∧
    (∀ t, fs.fce = some t → bufT + MIN_BUFFER_SPEECH_MS ≤ t) ∧
    (fs.fce = none → fs.firstChunkMs = 0)

/-- An empty server state (used to instantiate theorems on concrete runs). -/
def emptyState : ServerState :=
  { inFlight := [], pending := [], recentRequests := [], conversations := [], lastInitialIdx := -1 }

/-- A placeholder turn result (default for `Option.getD`). -/
def blankTurnResult : TurnResult :=
  { headers := [], events := [], state := emptyState, fetches := [], aborted := [], actions := []
    closed := false, fce := none }

/-- A placeholder pair result (default for `Option.getD`). -/
def blankPairResult : PairResult :=
  { eventsA := [], headersA := [], eventsB := [], headersB := [], fetches := [], aborted := []
    actsA := [], actsB := [], state := emptyState }

/- ### General lemmas about the map model. -/

theorem mapGet_mapSet_self {β : Type} (l : List (String × β)) (k : String) (v : β) :
    mapGet (mapSet l k v) k = some v := by
  induction l with
  | nil => simp [mapSet, mapGet]
  | cons p t ih =>
    by_cases h : p.1 == k
    · simp [mapSet, h, mapGet]
    · simp [mapSet, h, mapGet, ih]

theorem mapGet_mapDelete_self {β : Type} (l : List (String × β)) (k : String) :
    mapGet (mapDelete l k) k = none := by
  induction l with
  | nil => simp [mapDelete, mapGet]
  | cons p t ih =>
    by_cases h : p.1 == k
    · simp [mapDelete, h, ih]
    · simp [mapDelete, h, mapGet, ih]

theorem mapGet_mapDelete_ne {β : Type} (l : List (String × β)) (k k' : String)
    (h : (k' == k) = false) : mapGet (mapDelete l k) k' = mapGet l k' := by
  induction l with
  | nil => simp [mapDelete, mapGet]
  | cons p t ih =>
    by_cases hp : p.1 == k
    · have hpk : p.1 = k := by simpa using hp
      have : (p.1 == k') = false := by
        subst hpk
        cases hk : p.1 == k' with
        | false => rfl
        | true =>
          exfalso
          have : p.1 = k' := by simpa using hk
          rw [this] at h
          simp at h
      simp [mapDelete, hp, mapGet, this, ih]
    · simp [mapDelete, hp, mapGet, ih]

theorem mapGet_mapSet_ne {β : Type} (l : List (String × β)) (k k' : String) (v : β)
    (h : (k' == k) = false) : mapGet (mapSet l k v) k' = mapGet l k' := by
  induction l with
  | nil =>
    have : (k == k') = false := by
      cases hk : k == k' with
      | false => rfl
      | true =>
        exfalso
        have : k = k' := by simpa using hk
        rw [this] at h
        simp at h
    simp [mapSet, mapGet, this]
  | cons p t ih =>
    by_cases hp : p.1 == k
    · have hk1 : (k == k') = false := by
        cases hk : k == k' with
        | false => rfl
        | true =>
          exfalso
          have : k = k' := by simpa using hk
          rw [this] at h
          simp at h
      have hpk : p.1 = k := by simpa using hp
      have hk2 : (p.1 == k') = false := by rw [hpk]; exact hk1
      simp [mapSet, hp, mapGet, hk1, hk2]
    · simp [mapSet, hp, mapGet, ih]

/-- The freshly stored entry of `mapSet` survives any filter that keeps it,
and remains the first entry with its key. -/
theorem mapGet_filter_mapSet {β : Type} (l : List (String × β)) (k : String) (v : β)
    (q : String × β → Bool) (hq : q (k, v) = true) :
    mapGet ((mapSet l k v).filter q) k = some v := by
  induction l with
  | nil => simp [mapSet, List.filter, hq, mapGet]
  | cons p t ih =>
    by_cases hp : p.1 == k
    · simp [mapSet, hp, List.filter, hq, mapGet]
    · by_cases hqp : q p
      · simp [mapSet, hp, List.filter, hqp, mapGet, ih]
      · simp [mapSet, hp, List.filter, hqp, ih]

/- ### Path lemmas for the turn pipeline and the streaming loop. -/


theorem prologue_recent (st : ServerState) (s u : String) (t : Nat) :
    (prologue st s u t).state.recentRequests = st.recentRequests := rfl
theorem prologue_lastIdx (st : ServerState) (s u : String) (t : Nat) :
    (prologue st s u t).state.lastInitialIdx = st.lastInitialIdx := rfl

theorem handleTurn_stream (st : ServerState) (body : Body) (env : TurnEnv) (r : TurnResult)
    (h : handleTurn st body env = some r)
    (hs : silenceCond (userTextOf body) = false)
    (hsup : env.supersededAt = none)
    (hm : truthyOpt (getCachedResponse st.recentRequests (turnHash body)
            (env.arrival + DEBOUNCE_MS)) = false) :
    ∃ pick, getContextualPhrases st.lastInitialIdx env.cont.rands (userTextOf body) = some pick ∧
      r = { runUpstream (settledState st body env.arrival) (getSessionId body) (turnHash body)
              (setLastUserContent body.messages (userTextOf body ++ VOICE_HINT))
              (env.arrival + DEBOUNCE_MS) env.cont pick with
            aborted := (prologue st (getSessionId body) (userTextOf body) env.arrival).aborted
            actions := (prologue st (getSessionId body) (userTextOf body) env.arrival).actions } := by
  simp only [handleTurn, hs, Bool.false_eq_true, if_false, hsup] at h
  rw [Option.map_eq_some'] at h
  obtain ⟨r0, hr0, hmerge⟩ := h
  simp only [continueTurn, prologue_recent, prologue_lastIdx] at hr0
  rw [show getRequestHash (setLastUserContent body.messages (userTextOf body ++ VOICE_HINT))
        = turnHash body from rfl] at hr0
  rw [hm] at hr0
  rw [if_neg (by simp)] at hr0
  cases hp : getContextualPhrases st.lastInitialIdx env.cont.rands (userTextOf body) with
  | none => rw [hp] at hr0; simp at hr0
  | some pick =>
    rw [hp] at hr0
    simp only [Option.some.injEq] at hr0
    refine ⟨pick, rfl, ?_⟩
    rw [← hmerge, ← hr0]
    rfl

theorem stepKa_no_new_done (kap : List String) (fs : FoldSt) (t : Nat) (e : Nat × Frame)
    (he : e ∈ (stepKa kap fs t).out) : e ∈ fs.out ∨ isDoneFrame e.2 = false := by
  unfold stepKa at he
  by_cases hc : max fs.now t - fs.lastChunkTime > KEEPALIVE_INTERVAL_MS - 1000
  · simp only [hc, if_pos] at he
    rcases List.mem_append.mp he with h1 | h1
    · exact Or.inl h1
    · right
      simp only [List.mem_singleton] at h1
      subst h1
      rfl
  · simp only [hc, if_neg] at he
    exact Or.inl he

theorem stepLine_no_new_done (bufT : Nat) (fs : FoldSt) (t : Nat) (l : UpLine) (e : Nat × Frame)
    (he : e ∈ (stepLine bufT fs t l).out) : e ∈ fs.out ∨ isDoneFrame e.2 = false := by
  unfold stepLine at he
  by_cases h1 : (strTrim l.text == "" || !strStarts (strTrim l.text) "data: ") = true
  · rw [if_pos h1] at he
    exact Or.inl he
  · rw [if_neg h1] at he
    by_cases h2 : (strDrop (strTrim l.text) 6 == "[DONE]") = true
    · rw [if_pos h2] at he
      exact Or.inl he
    · rw [if_neg h2] at he
      cases hj : l.json with
      | none =>
        rw [hj] at he
        simp only at he
        rcases List.mem_append.mp he with h3 | h3
        · exact Or.inl h3
        · right
          simp only [List.mem_singleton] at h3
          subst h3
          simp only [isDoneFrame]
          cases hq : strTrim l.text == "data: [DONE]" with
          | false => rfl
          | true =>
            exfalso
            have : strTrim l.text = "data: [DONE]" := by simpa using hq
            rw [this] at h2
            exact h2 (by decide)
      | some c =>
        rw [hj] at he
        by_cases h4 : truthyOpt c = true
        · simp only [h4, if_pos] at he
          rcases List.mem_append.mp he with h3 | h3
          · exact Or.inl h3
          · right
            simp only [List.mem_singleton] at h3
            subst h3
            simp only [isDoneFrame]
            simpa using h2
        · simp only [h4, if_neg] at he
          rcases List.mem_append.mp he with h3 | h3
          · exact Or.inl h3
          · right
            simp only [List.mem_singleton] at h3
            subst h3
            simp only [isDoneFrame]
            simpa using h2

theorem streamFold_no_done (bufT : Nat) (kap : List String) (items : List StreamItem)
    (fs : FoldSt) (hfs : ∀ e ∈ fs.out, isDoneFrame e.2 = false) :
    ∀ e ∈ (streamFold bufT kap items fs).out, isDoneFrame e.2 = false := by
  induction items generalizing fs with
  | nil => simpa [streamFold] using hfs
  | cons it rest ih =>
    cases it with
    | line t l =>
      refine ih (stepLine bufT fs t l) ?_
      intro e he
      rcases stepLine_no_new_done bufT fs t l e he with h | h
      · exact hfs e h
      · exact h
    | ka t =>
      refine ih (stepKa kap fs t) ?_
      intro e he
      rcases stepKa_no_new_done kap fs t e he with h | h
      · exact hfs e h
      · exact h

theorem stepKa_llm (kap : List String) (fs : FoldSt) (t : Nat) :
    (stepKa kap fs t).llm = fs.llm := by
  unfold stepKa
  by_cases hc : max fs.now t - fs.lastChunkTime > KEEPALIVE_INTERVAL_MS - 1000 <;>
    simp [hc]

theorem stepLine_llm (bufT : Nat) (fs : FoldSt) (t : Nat) (l : UpLine) :
    (stepLine bufT fs t l).llm = fs.llm ++ (lineDelta l).getD "" := by
  unfold stepLine lineDelta
  by_cases h1 : (strTrim l.text == "" || !strStarts (strTrim l.text) "data: ") = true
  · simp [h1]
  · rw [if_neg h1, if_neg h1]
    by_cases h2 : (strDrop (strTrim l.text) 6 == "[DONE]") = true
    · simp [h2]
    · rw [if_neg h2, if_neg h2]
      cases hj : l.json with
      | none => simp
      | some c =>
        cases c with
        | none => simp [truthyOpt]
        | some s =>
          by_cases h4 : (s == "") = true
          · have : truthyOpt (some s) = false := by simp [truthyOpt, h4]
            simp [this, h4, if_pos]
          · have : truthyOpt (some s) = true := by
              simp only [truthyOpt]
              simp [h4]
            simp [this, h4]

theorem streamFold_llm (bufT : Nat) (kap : List String) (items : List StreamItem) (fs : FoldSt) :
    (streamFold bufT kap items fs).llm = fs.llm ++ concatAll (contentDeltas items) := by
  induction items generalizing fs with
  | nil => simp [streamFold, concatAll, contentDeltas]
  | cons it rest ih =>
    cases it with
    | line t l =>
      rw [streamFold, ih, stepLine_llm]
      cases hd : lineDelta l with
      | none => simp [contentDeltas, hd]
      | some c =>
        simp [contentDeltas, hd, concatAll, String.append_assoc]
    | ka t =>
      rw [streamFold, ih, stepKa_llm]
      simp [contentDeltas]

theorem streamFold_fce_some (bufT : Nat) (kap : List String) (items : List StreamItem)
    (fs : FoldSt) (t : Nat) (h : fs.fce = some t) :
    (streamFold bufT kap items fs).fce = some t := by
  induction items generalizing fs with
  | nil => simpa [streamFold] using h
  | cons it rest ih =>
    cases it with
    | line tl l =>
      refine ih (stepLine bufT fs tl l) ?_
      unfold stepLine
      by_cases h1 : (strTrim l.text == "" || !strStarts (strTrim l.text) "data: ") = true
      · simpa [h1] using h
      · rw [if_neg h1]
        by_cases h2 : (strDrop (strTrim l.text) 6 == "[DONE]") = true
        · simpa [h2] using h
        · rw [if_neg h2]
          cases l.json with
          | none => simpa using h
          | some c =>
            by_cases h4 : truthyOpt c = true
            · simp [h4, h]
            · simp [h4, h]
    | ka tk =>
      refine ih (stepKa kap fs tk) ?_
      unfold stepKa
      by_cases hc : max fs.now tk - fs.lastChunkTime > KEEPALIVE_INTERVAL_MS - 1000 <;>
        simpa [hc] using h

theorem stepKa_inv (kap : List String) (fs : FoldSt) (t : Nat) (bufT : Nat)
    (h : foldInv bufT fs) : foldInv bufT (stepKa kap fs t) := by
  obtain ⟨h1, h2, h3, h4⟩ := h
  unfold stepKa
  by_cases hc : max fs.now t - fs.lastChunkTime > KEEPALIVE_INTERVAL_MS - 1000
  · rw [if_pos hc]
    exact ⟨by simp only; omega, le_refl _, h3, h4⟩
  · rw [if_neg hc]
    exact ⟨h1, by simp only; omega, h3, h4⟩

theorem stepLine_inv (bufT : Nat) (fs : FoldSt) (t : Nat) (l : UpLine)
    (h : foldInv bufT fs) : foldInv bufT (stepLine bufT fs t l) := by
  obtain ⟨h1, h2, h3, h4⟩ := h
  have hmax : fs.lastChunkTime ≤ max fs.now t := le_trans h2 (le_max_left _ _)
  have hheld1 : bufT + MIN_BUFFER_SPEECH_MS ≤
      max fs.now t + (MIN_BUFFER_SPEECH_MS - (max fs.now t - fs.lastChunkTime)) := by omega
  unfold stepLine
  by_cases hc1 : (strTrim l.text == "" || !strStarts (strTrim l.text) "data: ") = true
  · rw [if_pos hc1]
    exact ⟨h1, hmax, h3, h4⟩
  · rw [if_neg hc1]
    by_cases hc2 : (strDrop (strTrim l.text) 6 == "[DONE]") = true
    · rw [if_pos hc2]
      exact ⟨h1, hmax, h3, h4⟩
    · rw [if_neg hc2]
      cases l.json with
      | none => exact ⟨h1, hmax, h3, h4⟩
      | some c =>
        simp only
        by_cases hc4 : truthyOpt c = true
        · rw [hc4, if_pos rfl]
          cases hfce : fs.fce with
          | none =>
            have hf : (fs.firstChunkMs == 0) = true := by simp [h4 hfce]
            rw [if_pos hf, if_pos hf]
            by_cases he : max fs.now t - fs.lastChunkTime < MIN_BUFFER_SPEECH_MS
            · rw [if_pos he]
              refine ⟨by simp only; omega, le_refl _, ?_, ?_⟩
              · intro u hu
                simp only [Option.some.injEq] at hu
                subst hu
                omega
              · intro hcon
                exact Option.noConfusion hcon
            · rw [if_neg he]
              refine ⟨by simp only; omega, le_refl _, ?_, ?_⟩
              · intro u hu
                simp only [Option.some.injEq] at hu
                subst hu
                omega
              · intro hcon
                exact Option.noConfusion hcon
          | some x =>
            have hx := h3 x hfce
            by_cases hf : (fs.firstChunkMs == 0) = true
            · rw [if_pos hf, if_pos hf]
              by_cases he : max fs.now t - fs.lastChunkTime < MIN_BUFFER_SPEECH_MS
              · rw [if_pos he]
                refine ⟨by simp only; omega, le_refl _, ?_, ?_⟩
                · intro u hu
                  simp only [Option.some.injEq] at hu
                  subst hu
                  exact hx
                · intro hcon
                  exact Option.noConfusion hcon
              · rw [if_neg he]
                refine ⟨by simp only; omega, le_refl _, ?_, ?_⟩
                · intro u hu
                  simp only [Option.some.injEq] at hu
                  subst hu
                  exact hx
                · intro hcon
                  exact Option.noConfusion hcon
            · rw [if_neg hf, if_neg hf]
              refine ⟨by simp only; omega, le_refl _, ?_, ?_⟩
              · intro u hu
                simp only [Option.some.injEq] at hu
                subst hu
                exact hx
              · intro hcon
                exact Option.noConfusion hcon
        · rw [if_neg hc4]
          exact ⟨h1, hmax, h3, h4⟩

theorem streamFold_inv (bufT : Nat) (kap : List String) (items : List StreamItem)
    (fs : FoldSt) (h : foldInv bufT fs) : foldInv bufT (streamFold bufT kap items fs) := by
  induction items generalizing fs with
  | nil => simpa [streamFold] using h
  | cons it rest ih =>
    cases it with
    | line t l => exact ih _ (stepLine_inv bufT fs t l h)
    | ka t => exact ih _ (stepKa_inv kap fs t bufT h)

theorem foldInit_inv (bufT : Nat) : foldInv bufT (foldInit bufT) := by
  refine ⟨le_refl _, le_refl _, ?_, ?_⟩
  · intro t ht
    exact Option.noConfusion ht
  · intro _
    rfl

/- ### Claim theorems. -/

theorem doneTail (pre : List (Nat × Frame)) (hpre : ∀ e ∈ pre, isDoneFrame e.2 = false) (t : Nat) :
    ((pre ++ [(t, Frame.done)]).filter (fun e => isDoneFrame e.2)).length = 1 ∧
    (pre ++ [(t, Frame.done)]).getLast? = some (t, Frame.done) := by
  constructor
  · rw [List.filter_append]
    have h1 : pre.filter (fun e => isDoneFrame e.2) = [] := by
      rw [List.filter_eq_nil]
      intro a ha
      simp [hpre a ha]
    rw [h1]
    rfl
  · exact List.getLast?_concat _

/-- C2: a turn whose trimmed user text is empty, `"..."`, the ellipsis
character, or shorter than 3 characters responds with exactly one SSE chunk
carrying a single space followed by `[DONE]`; no upstream fetch is issued and
the whole server state (conversation log, dedup cache, in-flight, pending) is
unchanged. -/
theorem C2_silence_gate (st : ServerState) (body : Body) (env : TurnEnv)
    (h : silenceCond (userTextOf body) = true) :
    handleTurn st body env = some
      { headers := sseBaseHeaders
        events := [(env.arrival, Frame.chunk ("chatcmpl-silence-" ++ toString env.arrival) " "),
                   (env.arrival, Frame.done)]
        state := st
        fetches := []
        aborted := []
        actions := []
        closed := true
        fce := none } := by
  simp [handleTurn, h]

theorem C2_silence_gate_witness :
    silenceCond (userTextOf { user := some "u1", messages := [{ role := "user", content := "..." }] }) = true ∧
    handleTurn emptyState { user := some "u1", messages := [{ role := "user", content := "..." }] }
      { arrival := 5, supersededAt := none,
        cont := { rands := [0], controllerId := 1, upstream := .stream [] 5 true, interference := none } } =
      some
        { headers := sseBaseHeaders
          events := [(5, Frame.chunk "chatcmpl-silence-5" " "), (5, Frame.done)]
          state := emptyState
          fetches := []
          aborted := []
          actions := []
          closed := true
          fce := none } :=
  ⟨by decide, C2_silence_gate _ _ _ (by decide)⟩

/-- C9 counterexample: the claim asserts every response, including the
silence short-circuit, carries `X-Accel-Buffering: no`.  On a concrete silent
POST the response headers are only the three of `sseHeaders` (line 264);
`X-Accel-Buffering` is set at line 330 only on the streaming path. -/
theorem C9_headers_counterexample :
    ("X-Accel-Buffering", "no") ∉
      ((handleTurn emptyState { user := some "u1", messages := [{ role := "user", content := "..." }] }
        { arrival := 0, supersededAt := none,
          cont := { rands := [0], controllerId := 1, upstream := .stream [] 0 true,
                    interference := none } }).getD blankTurnResult).headers := by
  decide

/-- C9 amended: every response carries `Content-Type: text/event-stream`,
`Cache-Control: no-cache` and `Connection: keep-alive`; the header
`X-Accel-Buffering: no` is present on the streaming (buffer-phrase) path,
i.e. on non-silent, non-superseded, dedup-miss turns, and is absent from the
silence, superseded, and dedup-hit short-circuit responses. -/
theorem C9_headers_amended (st : ServerState) (body : Body) (env : TurnEnv) (r : TurnResult)
    (h : handleTurn st body env = some r) :
    (("Content-Type", "text/event-stream") ∈ r.headers ∧
     ("Cache-Control", "no-cache") ∈ r.headers ∧
     ("Connection", "keep-alive") ∈ r.headers) ∧
    (silenceCond (userTextOf body) = false → env.supersededAt = none →
     truthyOpt (getCachedResponse st.recentRequests (turnHash body) (env.arrival + DEBOUNCE_MS)) = false →
     ("X-Accel-Buffering", "no") ∈ r.headers) ∧
    (silenceCond (userTextOf body) = true →
     ("X-Accel-Buffering", "no") ∉ r.headers) ∧
    (∀ tSup, silenceCond (userTextOf body) = false → env.supersededAt = some tSup →
     ("X-Accel-Buffering", "no") ∉ r.headers) ∧
    (silenceCond (userTextOf body) = false → env.supersededAt = none →
     truthyOpt (getCachedResponse st.recentRequests (turnHash body) (env.arrival + DEBOUNCE_MS)) = true →
     ("X-Accel-Buffering", "no") ∉ r.headers) := by
  cases hs : silenceCond (userTextOf body) with
  | true =>
    simp only [handleTurn, hs, if_true, Option.some.injEq] at h
    subst h
    refine ⟨by refine ⟨?_, ?_, ?_⟩ <;> simp [sseBaseHeaders], ?_, ?_, ?_, ?_⟩
    · intro hcon
      simp at hcon
    · intro _
      simp [sseBaseHeaders]
    · intro tSup hcon
      simp at hcon
    · intro hcon
      simp at hcon
  | false =>
    cases hsup : env.supersededAt with
    | some tSup0 =>
      simp only [handleTurn, hs, Bool.false_eq_true, if_false, hsup, Option.some.injEq] at h
      subst h
      refine ⟨by refine ⟨?_, ?_, ?_⟩ <;> simp [sseBaseHeaders], ?_, ?_, ?_, ?_⟩
      · intro _ hc
        exact Option.noConfusion hc
      · intro hcon
        exact absurd hcon (by simp)
      · intro tSup _ _
        simp [sseBaseHeaders]
      · intro _ hc
        exact Option.noConfusion hc
    | none =>
      cases hm : truthyOpt (getCachedResponse st.recentRequests (turnHash body)
          (env.arrival + DEBOUNCE_MS)) with
      | true =>
        simp only [handleTurn, hs, Bool.false_eq_true, if_false, hsup] at h
        rw [Option.map_eq_some'] at h
        obtain ⟨r0, hr0, hmerge⟩ := h
        simp only [continueTurn, prologue_recent, prologue_lastIdx] at hr0
        rw [show getRequestHash (setLastUserContent body.messages (userTextOf body ++ VOICE_HINT))
              = turnHash body from rfl] at hr0
        rw [hm, if_pos rfl] at hr0
        simp only [Option.some.injEq] at hr0
        have hhead : r.headers = sseBaseHeaders := by
          rw [← hmerge, ← hr0]
        rw [hhead]
        refine ⟨by refine ⟨?_, ?_, ?_⟩ <;> simp [sseBaseHeaders], ?_, ?_, ?_, ?_⟩
        · intro _ _ hc
          exact absurd hc (by simp)
        · intro hcon
          exact absurd hcon (by simp)
        · intro tSup _ hc
          exact Option.noConfusion hc
        · intro _ _ _
          simp [sseBaseHeaders]
      | false =>
        obtain ⟨pick, hp, hr⟩ := handleTurn_stream st body env r h hs hsup hm
        have hhead : r.headers = sseStreamHeaders := by
          rw [hr]
          cases hcase : env.cont.upstream <;> simp [runUpstream, hcase]
        rw [hhead]
        refine ⟨by refine ⟨?_, ?_, ?_⟩ <;> simp [sseStreamHeaders, sseBaseHeaders], ?_, ?_, ?_, ?_⟩
        · intro _ _ _
          simp [sseStreamHeaders, sseBaseHeaders]
        · intro hcon
          exact absurd hcon (by simp)
        · intro tSup _ hc
          exact Option.noConfusion hc
        · intro _ _ hc
          exact absurd hc (by simp)

theorem C9_headers_amended_witness :
    (("Content-Type", "text/event-stream") ∈
      ((handleTurn emptyState { user := some "u1", messages := [{ role := "user", content := "check my inbox" }] }
        { arrival := 0, supersededAt := none,
          cont := { rands := [0], controllerId := 1, upstream := .stream [] 5000 true,
                    interference := none } }).getD blankTurnResult).headers ∧
     ("Cache-Control", "no-cache") ∈
      ((handleTurn emptyState { user := some "u1", messages := [{ role := "user", content := "check my inbox" }] }
        { arrival := 0, supersededAt := none,
          cont := { rands := [0], controllerId := 1, upstream := .stream [] 5000 true,
                    interference := none } }).getD blankTurnResult).headers ∧
     ("Connection", "keep-alive") ∈
      ((handleTurn emptyState { user := some "u1", messages := [{ role := "user", content := "check my inbox" }] }
        { arrival := 0, supersededAt := none,
          cont := { rands := [0], controllerId := 1, upstream := .stream [] 5000 true,
                    interference := none } }).getD blankTurnResult).headers) ∧
    (silenceCond (userTextOf { user := some "u1", messages := [{ role := "user", content := "check my inbox" }] }) = false →
     (none : Option Nat) = none →
     truthyOpt (getCachedResponse emptyState.recentRequests
       (turnHash { user := some "u1", messages := [{ role := "user", content := "check my inbox" }] })
       (0 + DEBOUNCE_MS)) = false →
     ("X-Accel-Buffering", "no") ∈
      ((handleTurn emptyState { user := some "u1", messages := [{ role := "user", content := "check my inbox" }] }
        { arrival := 0, supersededAt := none,
          cont := { rands := [0], controllerId := 1, upstream := .stream [] 5000 true,
                    interference := none } }).getD blankTurnResult).headers) ∧
    (silenceCond (userTextOf { user := some "u1", messages := [{ role := "user", content := "..." }] }) = true →
     ("X-Accel-Buffering", "no") ∉
      ((handleTurn emptyState { user := some "u1", messages := [{ role := "user", content := "..." }] }
        { arrival := 3, supersededAt := none,
          cont := { rands := [0], controllerId := 1, upstream := .stream [] 3 true,
                    interference := none } }).getD blankTurnResult).headers) := by
  have hstream := C9_headers_amended emptyState
    { user := some "u1", messages := [{ role := "user", content := "check my inbox" }] }
    { arrival := 0, supersededAt := none,
      cont := { rands := [0], controllerId := 1, upstream := .stream [] 5000 true,
                interference := none } }
    _ rfl
  have hsil := C9_headers_amended emptyState
    { user := some "u1", messages := [{ role := "user", content := "..." }] }
    { arrival := 3, supersededAt := none,
      cont := { rands := [0], controllerId := 1, upstream := .stream [] 3 true,
                interference := none } }
    _ rfl
  exact ⟨hstream.1, hstream.2.1, hsil.2.2.1⟩

/-- C6: every response of the chat-completions handler, on each terminal path
(silence, superseded, dedup hit, normal completion, upstream non-2xx error
with or without a readable error body, fetch rejection/cancellation, and
mid-stream transport error), contains exactly one `data: [DONE]` frame, it is
the last frame written, and the response stream is closed. -/
theorem C6_terminal_done (st : ServerState) (body : Body) (env : TurnEnv) (r : TurnResult)
    (h : handleTurn st body env = some r) :
    (r.events.filter (fun e => isDoneFrame e.2)).length = 1 ∧
    (∃ t, r.events.getLast? = some (t, Frame.done)) ∧
    r.closed = true := by
  cases hs : silenceCond (userTextOf body) with
  | true =>
    simp only [handleTurn, hs, if_true, Option.some.injEq] at h
    subst h
    exact ⟨rfl, ⟨env.arrival, rfl⟩, rfl⟩
  | false =>
    cases hsup : env.supersededAt with
    | some tSup =>
      simp only [handleTurn, hs, Bool.false_eq_true, if_false, hsup, Option.some.injEq] at h
      subst h
      exact ⟨rfl, ⟨tSup, rfl⟩, rfl⟩
    | none =>
      cases hm : truthyOpt (getCachedResponse st.recentRequests (turnHash body)
          (env.arrival + DEBOUNCE_MS)) with
      | true =>
        simp only [handleTurn, hs, Bool.false_eq_true, if_false, hsup] at h
        rw [Option.map_eq_some'] at h
        obtain ⟨r0, hr0, hmerge⟩ := h
        simp only [continueTurn, prologue_recent, prologue_lastIdx] at hr0
        rw [show getRequestHash (setLastUserContent body.messages (userTextOf body ++ VOICE_HINT))
              = turnHash body from rfl] at hr0
        rw [hm, if_pos rfl] at hr0
        simp only [Option.some.injEq] at hr0
        have hev : r.events = [(env.arrival + DEBOUNCE_MS,
            Frame.chunk ("chatcmpl-dedup-" ++ toString (env.arrival + DEBOUNCE_MS))
              ((getCachedResponse st.recentRequests (turnHash body) (env.arrival + DEBOUNCE_MS)).getD ""))
            , (env.arrival + DEBOUNCE_MS, Frame.done)] := by
          rw [← hmerge, ← hr0]
        have hcl : r.closed = true := by rw [← hmerge, ← hr0]
        rw [hev]
        exact ⟨rfl, ⟨env.arrival + DEBOUNCE_MS, rfl⟩, hcl⟩
      | false =>
        obtain ⟨pick, hp, hr⟩ := handleTurn_stream st body env r h hs hsup hm
        have hinit : ∀ e ∈ (foldInit (env.arrival + DEBOUNCE_MS)).out, isDoneFrame e.2 = false := by
          intro e he
          exact absurd he (List.not_mem_nil e)
        cases hcase : env.cont.upstream with
        | fetchThrow ka tEnd =>
          simp only [runUpstream, hcase] at hr
          subst hr
          have hout := streamFold_no_done (env.arrival + DEBOUNCE_MS) pick.keepAlive
            (ka.map StreamItem.ka) (foldInit (env.arrival + DEBOUNCE_MS)) hinit
          have hpre : ∀ e ∈ (env.arrival + DEBOUNCE_MS,
              Frame.chunk ("chatcmpl-buf-" ++ toString (env.arrival + DEBOUNCE_MS)) pick.initial) ::
              (streamFold (env.arrival + DEBOUNCE_MS) pick.keepAlive (ka.map StreamItem.ka)
                (foldInit (env.arrival + DEBOUNCE_MS))).out, isDoneFrame e.2 = false := by
            intro e he
            rcases List.mem_cons.mp he with rfl | hmem
            · rfl
            · exact hout e hmem
          exact ⟨(doneTail _ hpre tEnd).1, ⟨tEnd, (doneTail _ hpre tEnd).2⟩, rfl⟩
        | httpError ka tEnd textOk =>
          simp only [runUpstream, hcase] at hr
          subst hr
          have hout := streamFold_no_done (env.arrival + DEBOUNCE_MS) pick.keepAlive
            (ka.map StreamItem.ka) (foldInit (env.arrival + DEBOUNCE_MS)) hinit
          cases textOk with
          | false =>
            have hpre : ∀ e ∈ (env.arrival + DEBOUNCE_MS,
                Frame.chunk ("chatcmpl-buf-" ++ toString (env.arrival + DEBOUNCE_MS)) pick.initial) ::
                (streamFold (env.arrival + DEBOUNCE_MS) pick.keepAlive (ka.map StreamItem.ka)
                  (foldInit (env.arrival + DEBOUNCE_MS))).out, isDoneFrame e.2 = false := by
              intro e he
              rcases List.mem_cons.mp he with rfl | hmem
              · rfl
              · exact hout e hmem
            exact ⟨(doneTail _ hpre tEnd).1, ⟨tEnd, (doneTail _ hpre tEnd).2⟩, rfl⟩
          | true =>
            have hpre : ∀ e ∈ ((env.arrival + DEBOUNCE_MS,
                Frame.chunk ("chatcmpl-buf-" ++ toString (env.arrival + DEBOUNCE_MS)) pick.initial) ::
                (streamFold (env.arrival + DEBOUNCE_MS) pick.keepAlive (ka.map StreamItem.ka)
                  (foldInit (env.arrival + DEBOUNCE_MS))).out) ++
                [(tEnd, Frame.chunk ("chatcmpl-err-" ++ toString tEnd) "Sorry, having trouble connecting. ")],
                isDoneFrame e.2 = false := by
              intro e he
              rcases List.mem_append.mp he with hmem | hmem
              · rcases List.mem_cons.mp hmem with rfl | hmem2
                · rfl
                · exact hout e hmem2
              · simp only [List.mem_singleton] at hmem
                subst hmem
                rfl
            have hassoc : ((env.arrival + DEBOUNCE_MS,
                Frame.chunk ("chatcmpl-buf-" ++ toString (env.arrival + DEBOUNCE_MS)) pick.initial) ::
                (streamFold (env.arrival + DEBOUNCE_MS) pick.keepAlive (ka.map StreamItem.ka)
                  (foldInit (env.arrival + DEBOUNCE_MS))).out) ++
                ([(tEnd, Frame.chunk ("chatcmpl-err-" ++ toString tEnd) "Sorry, having trouble connecting. ")] ++
                 [(tEnd, Frame.done)]) =
                (((env.arrival + DEBOUNCE_MS,
                Frame.chunk ("chatcmpl-buf-" ++ toString (env.arrival + DEBOUNCE_MS)) pick.initial) ::
                (streamFold (env.arrival + DEBOUNCE_MS) pick.keepAlive (ka.map StreamItem.ka)
                  (foldInit (env.arrival + DEBOUNCE_MS))).out) ++
                [(tEnd, Frame.chunk ("chatcmpl-err-" ++ toString tEnd) "Sorry, having trouble connecting. ")]) ++
                [(tEnd, Frame.done)] := (List.append_assoc _ _ _).symm
            refine ⟨?_, ⟨tEnd, ?_⟩, rfl⟩
            · have := (doneTail _ hpre tEnd).1
              simpa [hassoc] using this
            · have := (doneTail _ hpre tEnd).2
              simpa [hassoc] using this
        | stream items tEnd ok =>
          simp only [runUpstream, hcase] at hr
          have hout := streamFold_no_done (env.arrival + DEBOUNCE_MS) pick.keepAlive
            items (foldInit (env.arrival + DEBOUNCE_MS)) hinit
          have hpre : ∀ e ∈ (env.arrival + DEBOUNCE_MS,
              Frame.chunk ("chatcmpl-buf-" ++ toString (env.arrival + DEBOUNCE_MS)) pick.initial) ::
              (streamFold (env.arrival + DEBOUNCE_MS) pick.keepAlive items
                (foldInit (env.arrival + DEBOUNCE_MS))).out, isDoneFrame e.2 = false := by
            intro e he
            rcases List.mem_cons.mp he with rfl | hmem
            · rfl
            · exact hout e hmem
          subst hr
          exact ⟨(doneTail _ hpre tEnd).1, ⟨tEnd, (doneTail _ hpre tEnd).2⟩, rfl⟩

theorem C6_terminal_done_witness :
    ((((handleTurn emptyState { user := some "u1", messages := [{ role := "user", content := "..." }] }
        { arrival := 5, supersededAt := none,
          cont := { rands := [0], controllerId := 1, upstream := .stream [] 5 true,
                    interference := none } }).getD blankTurnResult).events.filter
      (fun e => isDoneFrame e.2)).length = 1) ∧
    (((handleTurn emptyState { user := some "u1", messages := [{ role := "user", content := "..." }] }
        { arrival := 5, supersededAt := none,
          cont := { rands := [0], controllerId := 1, upstream := .stream [] 5 true,
                    interference := none } }).getD blankTurnResult).events.getLast? =
      some (5, Frame.done)) ∧
    (((handleTurn emptyState { user := some "u1", messages := [{ role := "user", content := "..." }] }
        { arrival := 5, supersededAt := none,
          cont := { rands := [0], controllerId := 1, upstream := .stream [] 5 true,
                    interference := none } }).getD blankTurnResult).closed = true) :=
  ⟨(C6_terminal_done emptyState { user := some "u1", messages := [{ role := "user", content := "..." }] }
      { arrival := 5, supersededAt := none,
        cont := { rands := [0], controllerId := 1, upstream := .stream [] 5 true,
                  interference := none } } _ rfl).1, by decide,
   (C6_terminal_done emptyState { user := some "u1", messages := [{ role := "user", content := "..." }] }
      { arrival := 5, supersededAt := none,
        cont := { rands := [0], controllerId := 1, upstream := .stream [] 5 true,
                  interference := none } } _ rfl).2.2⟩

theorem settledState_recent (st : ServerState) (body : Body) (t : Nat) :
    (settledState st body t).recentRequests = st.recentRequests := rfl

/-- On a normally completed streaming turn, the dedup cache maps the turn's
fingerprint to the accumulated `llmContent` with the completion timestamp. -/
theorem normalCompletionCache (st : ServerState) (body : Body) (env : TurnEnv)
    (r : TurnResult) (items : List StreamItem) (tEnd : Nat)
    (h : handleTurn st body env = some r)
    (hs : silenceCond (userTextOf body) = false)
    (hsup : env.supersededAt = none)
    (hm : truthyOpt (getCachedResponse st.recentRequests (turnHash body)
            (env.arrival + DEBOUNCE_MS)) = false)
    (hup : env.cont.upstream = .stream items tEnd true) :
    mapGet r.state.recentRequests (turnHash body) =
      some { response := concatAll (contentDeltas items), timestamp := tEnd } := by
  obtain ⟨pick, hp, hr⟩ := handleTurn_stream st body env r h hs hsup hm
  simp only [runUpstream, hup] at hr
  subst hr
  simp only [if_pos rfl]
  have hllm : (streamFold (env.arrival + DEBOUNCE_MS) pick.keepAlive items
      (foldInit (env.arrival + DEBOUNCE_MS))).llm = concatAll (contentDeltas items) := by
    rw [streamFold_llm]
    rfl
  rw [show (settledState st body env.arrival).recentRequests = st.recentRequests from rfl] at *
  rw [hllm]
  exact mapGet_filter_mapSet st.recentRequests (turnHash body)
    { response := concatAll (contentDeltas items), timestamp := tEnd } _ (by simp)

/-- On any non-silent, non-superseded, dedup-miss turn, exactly one upstream
fetch is issued, carrying the hint-suffixed message list. -/
theorem streamPathFetches (st : ServerState) (body : Body) (env : TurnEnv) (r : TurnResult)
    (h : handleTurn st body env = some r)
    (hs : silenceCond (userTextOf body) = false)
    (hsup : env.supersededAt = none)
    (hm : truthyOpt (getCachedResponse st.recentRequests (turnHash body)
            (env.arrival + DEBOUNCE_MS)) = false) :
    r.fetches = [{ time := env.arrival + DEBOUNCE_MS
                   messages := setLastUserContent body.messages (userTextOf body ++ VOICE_HINT)
                   model := "openclaw:main" }] := by
  obtain ⟨pick, hp, hr⟩ := handleTurn_stream st body env r h hs hsup hm
  cases hcase : env.cont.upstream <;> (simp only [runUpstream, hcase] at hr; rw [hr])

/-- C5: on every normally completed turn (non-silent, not superseded, dedup
miss, upstream stream read to its end), the text stored in the dedup cache
under the turn's fingerprint is exactly the concatenation of the upstream's
truthy content deltas in arrival order; buffer and keep-alive phrases are
never part of it. -/
theorem C5_cache_excludes_filler (st : ServerState) (body : Body) (env : TurnEnv)
    (r : TurnResult) (items : List StreamItem) (tEnd : Nat)
    (h : handleTurn st body env = some r)
    (hs : silenceCond (userTextOf body) = false)
    (hsup : env.supersededAt = none)
    (hm : truthyOpt (getCachedResponse st.recentRequests (turnHash body)
            (env.arrival + DEBOUNCE_MS)) = false)
    (hup : env.cont.upstream = .stream items tEnd true) :
    mapGet r.state.recentRequests (turnHash body) =
      some { response := concatAll (contentDeltas items), timestamp := tEnd } :=
  normalCompletionCache st body env r items tEnd h hs hsup hm hup

theorem C5_cache_excludes_filler_witness :
    mapGet ((handleTurn emptyState
        { user := some "u1", messages := [{ role := "user", content := "check my inbox" }] }
        { arrival := 0, supersededAt := none,
          cont := { rands := [0], controllerId := 1,
                    upstream := .stream
                      [StreamItem.line 3000 { text := "data: chunkone", json := some (some "Hello ") },
                       StreamItem.ka 10000,
                       StreamItem.line 12000 { text := "data: chunktwo", json := some (some "world.") }]
                      12500 true,
                    interference := none } }).getD blankTurnResult).state.recentRequests
      (turnHash { user := some "u1", messages := [{ role := "user", content := "check my inbox" }] }) =
    some { response := concatAll (contentDeltas
            [StreamItem.line 3000 { text := "data: chunkone", json := some (some "Hello ") },
             StreamItem.ka 10000,
             StreamItem.line 12000 { text := "data: chunktwo", json := some (some "world.") }])
           timestamp := 12500 } :=
  C5_cache_excludes_filler emptyState
    { user := some "u1", messages := [{ role := "user", content := "check my inbox" }] }
    { arrival := 0, supersededAt := none,
      cont := { rands := [0], controllerId := 1,
                upstream := .stream
                  [StreamItem.line 3000 { text := "data: chunkone", json := some (some "Hello ") },
                   StreamItem.ka 10000,
                   StreamItem.line 12000 { text := "data: chunktwo", json := some (some "world.") }]
                  12500 true,
                interference := none } }
    _ _ _ rfl (by decide) rfl (by decide) rfl

/-- C10: a turn that completes normally with no truthy content deltas stores
the empty string in the dedup cache under its fingerprint; yet a later
request with the same fingerprint inside the 15 s window is treated as a
cache miss (the dedup test at line 320 checks string truthiness, and `""` is
falsy), so exactly one fresh upstream fetch is issued. -/
theorem C10_empty_cache_miss (st : ServerState) (body : Body) (env : TurnEnv)
    (r : TurnResult) (items : List StreamItem) (tEnd : Nat)
    (h : handleTurn st body env = some r)
    (hs : silenceCond (userTextOf body) = false)
    (hsup : env.supersededAt = none) :
    (env.cont.upstream = .stream items tEnd true →
     contentDeltas items = [] →
     truthyOpt (getCachedResponse st.recentRequests (turnHash body)
       (env.arrival + DEBOUNCE_MS)) = false →
     mapGet r.state.recentRequests (turnHash body) = some { response := "", timestamp := tEnd }) ∧
    (getCachedResponse st.recentRequests (turnHash body) (env.arrival + DEBOUNCE_MS) = some "" →
     r.fetches.length = 1) := by
  constructor
  · intro hup hd hm
    have hc := normalCompletionCache st body env r items tEnd h hs hsup hm hup
    rw [hd] at hc
    exact hc
  · intro hhit
    have hm : truthyOpt (getCachedResponse st.recentRequests (turnHash body)
        (env.arrival + DEBOUNCE_MS)) = false := by rw [hhit]; rfl
    rw [streamPathFetches st body env r h hs hsup hm]
    rfl

theorem C10_empty_cache_miss_witness :
    mapGet ((handleTurn
        { inFlight := [], pending := [],
          recentRequests := [(turnHash { user := some "u1", messages := [{ role := "user", content := "check my inbox" }] },
            { response := "", timestamp := 0 })],
          conversations := [], lastInitialIdx := -1 }
        { user := some "u1", messages := [{ role := "user", content := "check my inbox" }] }
        { arrival := 0, supersededAt := none,
          cont := { rands := [0], controllerId := 1, upstream := .stream [] 9000 true,
                    interference := none } }).getD blankTurnResult).state.recentRequests
      (turnHash { user := some "u1", messages := [{ role := "user", content := "check my inbox" }] }) =
      some { response := "", timestamp := 9000 } ∧
    ((handleTurn
        { inFlight := [], pending := [],
          recentRequests := [(turnHash { user := some "u1", messages := [{ role := "user", content := "check my inbox" }] },
            { response := "", timestamp := 0 })],
          conversations := [], lastInitialIdx := -1 }
        { user := some "u1", messages := [{ role := "user", content := "check my inbox" }] }
        { arrival := 0, supersededAt := none,
          cont := { rands := [0], controllerId := 1, upstream := .stream [] 9000 true,
                    interference := none } }).getD blankTurnResult).fetches.length = 1 :=
  ⟨(C10_empty_cache_miss
      { inFlight := [], pending := [],
        recentRequests := [(turnHash { user := some "u1", messages := [{ role := "user", content := "check my inbox" }] },
          { response := "", timestamp := 0 })],
        conversations := [], lastInitialIdx := -1 }
      { user := some "u1", messages := [{ role := "user", content := "check my inbox" }] }
      { arrival := 0, supersededAt := none,
        cont := { rands := [0], controllerId := 1, upstream := .stream [] 9000 true,
                  interference := none } }
      _ [] 9000 rfl (by decide) rfl).1 rfl rfl (by decide),
   (C10_empty_cache_miss
      { inFlight := [], pending := [],
        recentRequests := [(turnHash { user := some "u1", messages := [{ role := "user", content := "check my inbox" }] },
          { response := "", timestamp := 0 })],
        conversations := [], lastInitialIdx := -1 }
      { user := some "u1", messages := [{ role := "user", content := "check my inbox" }] }
      { arrival := 0, supersededAt := none,
        cont := { rands := [0], controllerId := 1, upstream := .stream [] 9000 true,
                  interference := none } }
      _ [] 9000 rfl (by decide) rfl).2 (by decide)⟩

theorem lineTruthy_elim (l : UpLine) (h : lineTruthy l = true) :
    ((strTrim l.text == "" || !strStarts (strTrim l.text) "data: ") = false) ∧
    ((strDrop (strTrim l.text) 6 == "[DONE]") = false) ∧
    ∃ c, l.json = some (some c) ∧ truthyOpt (some c) = true := by
  unfold lineTruthy lineDelta at h
  by_cases h1 : (strTrim l.text == "" || !strStarts (strTrim l.text) "data: ") = true
  · rw [if_pos h1] at h
    exact absurd h (by simp)
  · rw [if_neg h1] at h
    by_cases h2 : (strDrop (strTrim l.text) 6 == "[DONE]") = true
    · rw [if_pos h2] at h
      exact absurd h (by simp)
    · rw [if_neg h2] at h
      refine ⟨by simpa using h1, by simpa using h2, ?_⟩
      cases hj : l.json with
      | none => rw [hj] at h; simp at h
      | some c =>
        cases c with
        | none => rw [hj] at h; simp at h
        | some s =>
          rw [hj] at h
          simp only at h
          by_cases h4 : (s == "") = true
          · rw [if_pos h4] at h
            simp at h
          · exact ⟨s, rfl, by simp [truthyOpt]; simpa using h4⟩

/-- C3: on every non-silent, non-superseded, dedup-miss turn, the first
truthy LLM content delta is never forwarded earlier than
`MIN_BUFFER_SPEECH_MS` after the buffer phrase was written (the buffer is
written when the debounce settles, at `arrival + DEBOUNCE_MS`); and when the
upstream's first line is a content delta arriving earlier than that deadline,
the pipeline sleeps exactly the remainder, forwarding it at
`arrival + DEBOUNCE_MS + MIN_BUFFER_SPEECH_MS`. -/
theorem C3_smart_hold (st : ServerState) (body : Body) (env : TurnEnv) (r : TurnResult)
    (h : handleTurn st body env = some r) :
    (∀ t, r.fce = some t → env.arrival + DEBOUNCE_MS + MIN_BUFFER_SPEECH_MS ≤ t) ∧
    (∀ ta l rest tEnd ok, env.cont.upstream = .stream (StreamItem.line ta l :: rest) tEnd ok →
      lineTruthy l = true →
      ta < env.arrival + DEBOUNCE_MS + MIN_BUFFER_SPEECH_MS →
      silenceCond (userTextOf body) = false →
      env.supersededAt = none →
      truthyOpt (getCachedResponse st.recentRequests (turnHash body)
        (env.arrival + DEBOUNCE_MS)) = false →
      r.fce = some (env.arrival + DEBOUNCE_MS + MIN_BUFFER_SPEECH_MS)) := by
  constructor
  · intro t hfce
    cases hs : silenceCond (userTextOf body) with
    | true =>
      simp only [handleTurn, hs, if_true, Option.some.injEq] at h
      subst h
      exact absurd hfce (by simp)
    | false =>
      cases hsup : env.supersededAt with
      | some tSup =>
        simp only [handleTurn, hs, Bool.false_eq_true, if_false, hsup, Option.some.injEq] at h
        subst h
        exact absurd hfce (by simp)
      | none =>
        cases hm : truthyOpt (getCachedResponse st.recentRequests (turnHash body)
            (env.arrival + DEBOUNCE_MS)) with
        | true =>
          simp only [handleTurn, hs, Bool.false_eq_true, if_false, hsup] at h
          rw [Option.map_eq_some'] at h
          obtain ⟨r0, hr0, hmerge⟩ := h
          simp only [continueTurn, prologue_recent, prologue_lastIdx] at hr0
          rw [show getRequestHash (setLastUserContent body.messages (userTextOf body ++ VOICE_HINT))
                = turnHash body from rfl] at hr0
          rw [hm, if_pos rfl] at hr0
          simp only [Option.some.injEq] at hr0
          have : r.fce = none := by rw [← hmerge, ← hr0]
          rw [this] at hfce
          exact Option.noConfusion hfce
        | false =>
          obtain ⟨pick, hp, hr⟩ := handleTurn_stream st body env r h hs hsup hm
          cases hcase : env.cont.upstream with
          | fetchThrow ka tEnd =>
            simp only [runUpstream, hcase] at hr
            subst hr
            exact absurd hfce (by simp)
          | httpError ka tEnd textOk =>
            simp only [runUpstream, hcase] at hr
            subst hr
            exact absurd hfce (by simp)
          | stream items tEnd ok =>
            simp only [runUpstream, hcase] at hr
            subst hr
            have hinv := streamFold_inv (env.arrival + DEBOUNCE_MS) pick.keepAlive items
              (foldInit (env.arrival + DEBOUNCE_MS)) (foldInit_inv _)
            exact hinv.2.2.1 t hfce
  · intro ta l rest tEnd ok hup hlt hta hs hsup hm
    obtain ⟨pick, hp, hr⟩ := handleTurn_stream st body env r h hs hsup hm
    simp only [runUpstream, hup] at hr
    subst hr
    obtain ⟨hg1, hg2, c, hj, hc⟩ := lineTruthy_elim l hlt
    have hstep : (stepLine (env.arrival + DEBOUNCE_MS) (foldInit (env.arrival + DEBOUNCE_MS)) ta l).fce
        = some (env.arrival + DEBOUNCE_MS + MIN_BUFFER_SPEECH_MS) := by
      unfold stepLine foldInit
      rw [if_neg (by simp [hg1]), if_neg (by simp [hg2]), hj]
      simp only [hc, if_pos rfl]
      rw [if_pos (by simp)]
      have hmin : MIN_BUFFER_SPEECH_MS = 2500 := rfl
      have he : max (env.arrival + DEBOUNCE_MS) ta - (env.arrival + DEBOUNCE_MS)
          < MIN_BUFFER_SPEECH_MS := by omega
      rw [if_pos he]
      have : max (env.arrival + DEBOUNCE_MS) ta +
          (MIN_BUFFER_SPEECH_MS - (max (env.arrival + DEBOUNCE_MS) ta - (env.arrival + DEBOUNCE_MS)))
          = env.arrival + DEBOUNCE_MS + MIN_BUFFER_SPEECH_MS := by omega
      simp only [this]
      simp
    rw [streamFold]
    exact streamFold_fce_some _ _ _ _ _ hstep

theorem C3_smart_hold_witness :
    ((handleTurn emptyState { user := some "u1", messages := [{ role := "user", content := "check my inbox" }] }
        { arrival := 0, supersededAt := none,
          cont := { rands := [0], controllerId := 1,
                    upstream := .stream
                      [StreamItem.line 1600 { text := "data: chunkone", json := some (some "Hi") }]
                      5000 true,
                    interference := none } }).getD blankTurnResult).fce =
      some (0 + DEBOUNCE_MS + MIN_BUFFER_SPEECH_MS) ∧
    0 + DEBOUNCE_MS + MIN_BUFFER_SPEECH_MS ≤ 0 + DEBOUNCE_MS + MIN_BUFFER_SPEECH_MS := by
  have hc := C3_smart_hold emptyState
    { user := some "u1", messages := [{ role := "user", content := "check my inbox" }] }
    { arrival := 0, supersededAt := none,
      cont := { rands := [0], controllerId := 1,
                upstream := .stream
                  [StreamItem.line 1600 { text := "data: chunkone", json := some (some "Hi") }]
                  5000 true,
                interference := none } }
    _ rfl
  have h2 := hc.2 1600 { text := "data: chunkone", json := some (some "Hi") } [] 5000 true
    rfl (by decide) (by decide) (by decide) rfl (by decide)
  exact ⟨h2, hc.1 _ h2⟩

theorem cleanupInFlight_reg (infl : List (String × Nat)) (s : String) (ctrl : Nat) :
    (mapGet (cleanupInFlight (mapSet infl s ctrl) s ctrl none) s = none) ∧
    (∀ v, mapGet (cleanupInFlight (mapSet infl s ctrl) s ctrl (some v)) s =
      if v = some ctrl then none else v) := by
  constructor
  · unfold cleanupInFlight
    simp only
    rw [mapGet_mapSet_self]
    simp [mapGet_mapDelete_self]
  · intro v
    cases v with
    | none =>
      unfold cleanupInFlight
      simp only
      have hd : mapGet (mapDelete (mapSet infl s ctrl) s) s = none := mapGet_mapDelete_self _ _
      rw [hd]
      simp [hd]
    | some c =>
      unfold cleanupInFlight
      simp only
      rw [mapGet_mapSet_self]
      by_cases hc : c = ctrl
      · subst hc
        simp [mapGet_mapDelete_self]
      · have hne : (some c == some ctrl) = false := by simp [hc]
        rw [hne]
        simp only [Bool.false_eq_true, if_false]
        rw [mapGet_mapSet_self]
        simp [hc]

/-- C8: on every terminal path of a turn that registered an in-flight handle
(normal finish, upstream non-2xx, fetch rejection, mid-stream error), the
session's in-flight entry is removed only when it still stores this turn's
controller; a handle written concurrently by a newer turn (modeled by the
interference oracle) survives this turn's cleanup untouched. -/
theorem C8_inflight_guard (st : ServerState) (body : Body) (env : TurnEnv) (r : TurnResult)
    (h : handleTurn st body env = some r)
    (hs : silenceCond (userTextOf body) = false)
    (hsup : env.supersededAt = none)
    (hm : truthyOpt (getCachedResponse st.recentRequests (turnHash body)
            (env.arrival + DEBOUNCE_MS)) = false) :
    (env.cont.interference = none → mapGet r.state.inFlight (getSessionId body) = none) ∧
    (∀ v, env.cont.interference = some v →
      mapGet r.state.inFlight (getSessionId body) =
        if v = some env.cont.controllerId then none else v) := by
  obtain ⟨pick, hp, hr⟩ := handleTurn_stream st body env r h hs hsup hm
  have key : r.state.inFlight = cleanupInFlight
      (mapSet (settledState st body env.arrival).inFlight (getSessionId body) env.cont.controllerId)
      (getSessionId body) env.cont.controllerId env.cont.interference := by
    cases hcase : env.cont.upstream with
    | fetchThrow ka tEnd =>
      simp only [runUpstream, hcase] at hr
      rw [hr]
    | httpError ka tEnd textOk =>
      simp only [runUpstream, hcase] at hr
      rw [hr]
    | stream items tEnd ok =>
      simp only [runUpstream, hcase] at hr
      rw [hr]
      cases ok <;> rfl
  rw [key]
  constructor
  · intro hint
    rw [hint]
    exact (cleanupInFlight_reg _ _ _).1
  · intro v hint
    rw [hint]
    exact (cleanupInFlight_reg _ _ _).2 v

theorem C8_inflight_guard_witness :
    mapGet ((handleTurn emptyState
        { user := some "u1", messages := [{ role := "user", content := "check my inbox" }] }
        { arrival := 0, supersededAt := none,
          cont := { rands := [0], controllerId := 1, upstream := .stream [] 5000 true,
                    interference := some (some 9) } }).getD blankTurnResult).state.inFlight
      (getSessionId { user := some "u1", messages := [{ role := "user", content := "check my inbox" }] }) =
      if (some 9 : Option Nat) = some 1 then none else some 9 :=
  (C8_inflight_guard emptyState
    { user := some "u1", messages := [{ role := "user", content := "check my inbox" }] }
    { arrival := 0, supersededAt := none,
      cont := { rands := [0], controllerId := 1, upstream := .stream [] 5000 true,
                interference := some (some 9) } }
    _ rfl (by decide) rfl (by decide)).2 (some 9) rfl

theorem mapGet_eq_none_of_not_mem {β : Type} (l : List (String × β)) (k : String)
    (h : k ∉ l.map Prod.fst) : mapGet l k = none := by
  induction l with
  | nil => rfl
  | cons p t ih =>
    simp only [List.map_cons, List.mem_cons] at h
    push_neg at h
    have hne : (p.1 == k) = false := by
      simp
      intro hc
      exact h.1 hc.symm
    simp only [mapGet, hne, Bool.false_eq_true, if_false]
    exact ih h.2

theorem mapGet_filter_nodup {β : Type} (l : List (String × β)) (k : String)
    (q : String × β → Bool) (hnd : (l.map Prod.fst).Nodup) :
    mapGet (l.filter q) k =
      match mapGet l k with
      | some v => if q (k, v) then some v else none
      | none => none := by
  induction l with
  | nil => rfl
  | cons p t ih =>
    simp only [List.map_cons, List.nodup_cons] at hnd
    obtain ⟨hp, hnd2⟩ := hnd
    by_cases hk : (p.1 == k) = true
    · have hpk : p.1 = k := by simpa using hk
      by_cases hq : q p = true
      · rw [List.filter_cons_of_pos hq]
        simp only [mapGet, hk, if_pos]
        have : (k, p.2) = p := by rw [← hpk]
        rw [this, if_pos hq]
      · rw [List.filter_cons_of_neg (by simpa using hq)]
        have hnone : mapGet t k = none := by
          apply mapGet_eq_none_of_not_mem
          rw [← hpk]
          exact hp
        have : mapGet (t.filter q) k = none := by
          rw [ih hnd2, hnone]
        rw [this]
        simp only [mapGet, hk, if_pos]
        have hqp : q (k, p.2) = false := by
          have : (k, p.2) = p := by rw [← hpk]
          rw [this]
          simpa using hq
        rw [hqp]
        simp
    · have hkf : (p.1 == k) = false := by simpa using hk
      by_cases hq : q p = true
      · rw [List.filter_cons_of_pos hq]
        simp only [mapGet, hkf, Bool.false_eq_true, if_false]
        exact ih hnd2
      · rw [List.filter_cons_of_neg (by simpa using hq)]
        simp only [mapGet, hkf, Bool.false_eq_true, if_false]
        exact ih hnd2

theorem mem_keys_mapSet {β : Type} (l : List (String × β)) (k : String) (v : β) (x : String)
    (h : x ∈ (mapSet l k v).map Prod.fst) : x = k ∨ x ∈ l.map Prod.fst := by
  induction l with
  | nil =>
    simp [mapSet] at h
    exact Or.inl h
  | cons p t ih =>
    simp only [mapSet] at h
    by_cases hk : (p.1 == k) = true
    · rw [if_pos hk] at h
      simp only [List.map_cons, List.mem_cons] at h
      rcases h with h | h
      · exact Or.inl h
      · exact Or.inr (by simp only [List.map_cons, List.mem_cons]; right; exact h)
    · rw [if_neg hk] at h
      simp only [List.map_cons, List.mem_cons] at h
      rcases h with h | h
      · exact Or.inr (by simp only [List.map_cons, List.mem_cons]; left; exact h)
      · rcases ih h with h2 | h2
        · exact Or.inl h2
        · exact Or.inr (by simp only [List.map_cons, List.mem_cons]; right; exact h2)

theorem mapSet_keys_nodup {β : Type} (l : List (String × β)) (k : String) (v : β)
    (h : (l.map Prod.fst).Nodup) : ((mapSet l k v).map Prod.fst).Nodup := by
  induction l with
  | nil => simp [mapSet]
  | cons p t ih =>
    simp only [List.map_cons, List.nodup_cons] at h
    obtain ⟨hp, hnd⟩ := h
    by_cases hk : (p.1 == k) = true
    · have hpk : p.1 = k := by simpa using hk
      simp only [mapSet, hk, if_pos, List.map_cons, List.nodup_cons]
      rw [← hpk]
      exact ⟨hp, hnd⟩
    · have hkf : (p.1 == k) = false := by simpa using hk
      simp only [mapSet, hkf, Bool.false_eq_true, if_false, List.map_cons, List.nodup_cons]
      constructor
      · intro hmem
        rcases mem_keys_mapSet t k v p.1 hmem with h2 | h2
        · rw [h2] at hkf
          simp at hkf
        · exact hp h2
      · exact ih hnd

/-- C4 counterexample: the dedup lookup returns the stored text for a fresh
entry holding the empty string (a "fresh hit" by the claim's own lookup
semantics), yet the turn issues an upstream fetch instead of replaying the
cached text, because line 320 tests the truthiness of the returned string. -/
theorem C4_cache_hit_counterexample :
    getCachedResponse
      [(turnHash { user := some "u1", messages := [{ role := "user", content := "check my inbox" }] },
        { response := "", timestamp := 0 })]
      (turnHash { user := some "u1", messages := [{ role := "user", content := "check my inbox" }] })
      (0 + DEBOUNCE_MS) = some "" ∧
    ((handleTurn
        { inFlight := [], pending := [],
          recentRequests := [(turnHash { user := some "u1", messages := [{ role := "user", content := "check my inbox" }] },
            { response := "", timestamp := 0 })],
          conversations := [], lastInitialIdx := -1 }
        { user := some "u1", messages := [{ role := "user", content := "check my inbox" }] }
        { arrival := 0, supersededAt := none,
          cont := { rands := [0], controllerId := 1, upstream := .stream [] 5000 true,
                    interference := none } }).getD blankTurnResult).fetches.length = 1 := by
  constructor
  · decide
  · decide

/-- C4 amended: lookup returns the stored text iff an entry exists with age
under `DEDUP_WINDOW_MS`; store inserts with the current timestamp and evicts
every other entry older than `2 * DEDUP_WINDOW_MS`; and on a fresh hit whose
cached text is NON-EMPTY the turn replays the cached text as a single chunk
followed by `[DONE]` and issues no upstream fetch (an empty cached text is
treated as a miss, see the companion implicit claim). -/
theorem C4_cache_semantics_amended
    (cache : List (String × CacheEntry)) (hKey k : String) (resp s : String) (now : Nat)
    (hnodup : (cache.map Prod.fst).Nodup)
    (st : ServerState) (body : Body) (env : TurnEnv) (r : TurnResult)
    (hrun : handleTurn st body env = some r)
    (hs : silenceCond (userTextOf body) = false)
    (hsup : env.supersededAt = none)
    (hhit : getCachedResponse st.recentRequests (turnHash body) (env.arrival + DEBOUNCE_MS) = some s)
    (hne : s ≠ "") :
    (getCachedResponse cache hKey now = some resp ↔
      ∃ e, mapGet cache hKey = some e ∧ now - e.timestamp < DEDUP_WINDOW_MS ∧ resp = e.response) ∧
    (mapGet (cacheResponse cache hKey resp now) hKey = some { response := resp, timestamp := now }) ∧
    (k ≠ hKey →
      mapGet (cacheResponse cache hKey resp now) k =
        (match mapGet cache k with
         | some e => if now - e.timestamp > DEDUP_WINDOW_MS * 2 then none else some e
         | none => none)) ∧
    (r.events = [(env.arrival + DEBOUNCE_MS,
        Frame.chunk ("chatcmpl-dedup-" ++ toString (env.arrival + DEBOUNCE_MS)) s),
      (env.arrival + DEBOUNCE_MS, Frame.done)] ∧ r.fetches = []) := by
  refine ⟨?_, ?_, ?_, ?_⟩
  · constructor
    · intro hl
      unfold getCachedResponse at hl
      cases hg : mapGet cache hKey with
      | none =>
        rw [hg] at hl
        simp only at hl
        exact Option.noConfusion hl
      | some e =>
        rw [hg] at hl
        simp only at hl
        by_cases hfresh : now - e.timestamp < DEDUP_WINDOW_MS
        · rw [if_pos hfresh] at hl
          simp only [Option.some.injEq] at hl
          exact ⟨e, rfl, hfresh, hl.symm⟩
        · rw [if_neg hfresh] at hl
          exact Option.noConfusion hl
    · intro hex
      obtain ⟨e, hg, hfresh, he⟩ := hex
      unfold getCachedResponse
      rw [hg]
      simp only
      rw [if_pos hfresh, he]
  · exact mapGet_filter_mapSet cache hKey { response := resp, timestamp := now } _ (by simp)
  · intro hkne
    unfold cacheResponse
    rw [mapGet_filter_nodup _ _ _ (mapSet_keys_nodup cache hKey _ hnodup)]
    rw [mapGet_mapSet_ne cache hKey k _ (by simp [hkne])]
    cases hg : mapGet cache k with
    | none => rfl
    | some e =>
      by_cases hold : now - e.timestamp > DEDUP_WINDOW_MS * 2
      · simp only [hold]
        simp
      · simp only [hold]
        simp
  · have hm : truthyOpt (getCachedResponse st.recentRequests (turnHash body)
        (env.arrival + DEBOUNCE_MS)) = true := by
      rw [hhit]
      simpa [truthyOpt] using hne
    simp only [handleTurn, hs, Bool.false_eq_true, if_false, hsup] at hrun
    rw [Option.map_eq_some'] at hrun
    obtain ⟨r0, hr0, hmerge⟩ := hrun
    simp only [continueTurn, prologue_recent, prologue_lastIdx] at hr0
    rw [show getRequestHash (setLastUserContent body.messages (userTextOf body ++ VOICE_HINT))
          = turnHash body from rfl] at hr0
    rw [hm, if_pos rfl] at hr0
    simp only [Option.some.injEq] at hr0
    constructor
    · have : r.events = [(env.arrival + DEBOUNCE_MS,
          Frame.chunk ("chatcmpl-dedup-" ++ toString (env.arrival + DEBOUNCE_MS))
            ((getCachedResponse st.recentRequests (turnHash body) (env.arrival + DEBOUNCE_MS)).getD ""))
          , (env.arrival + DEBOUNCE_MS, Frame.done)] := by
        rw [← hmerge, ← hr0]
      rw [this, hhit]
      rfl
    · rw [← hmerge, ← hr0]

theorem C4_cache_semantics_amended_witness :
    mapGet (cacheResponse [("k1", { response := "v1", timestamp := 0 })] "k2" "r" 40000) "k2" =
      some { response := "r", timestamp := 40000 } ∧
    ((handleTurn
        { inFlight := [], pending := [],
          recentRequests := [(turnHash { user := some "u1", messages := [{ role := "user", content := "what is the time" }] },
            { response := "Ten past three.", timestamp := 100 })],
          conversations := [], lastInitialIdx := -1 }
        { user := some "u1", messages := [{ role := "user", content := "what is the time" }] }
        { arrival := 0, supersededAt := none,
          cont := { rands := [0], controllerId := 1, upstream := .stream [] 5000 true,
                    interference := none } }).getD blankTurnResult).events =
      [(1500, Frame.chunk "chatcmpl-dedup-1500" "Ten past three."), (1500, Frame.done)] ∧
    ((handleTurn
        { inFlight := [], pending := [],
          recentRequests := [(turnHash { user := some "u1", messages := [{ role := "user", content := "what is the time" }] },
            { response := "Ten past three.", timestamp := 100 })],
          conversations := [], lastInitialIdx := -1 }
        { user := some "u1", messages := [{ role := "user", content := "what is the time" }] }
        { arrival := 0, supersededAt := none,
          cont := { rands := [0], controllerId := 1, upstream := .stream [] 5000 true,
                    interference := none } }).getD blankTurnResult).fetches = [] := by
  have hc := C4_cache_semantics_amended
    [("k1", { response := "v1", timestamp := 0 })] "k2" "k1" "r" "Ten past three." 40000
    (by decide)
    { inFlight := [], pending := [],
      recentRequests := [(turnHash { user := some "u1", messages := [{ role := "user", content := "what is the time" }] },
        { response := "Ten past three.", timestamp := 100 })],
      conversations := [], lastInitialIdx := -1 }
    { user := some "u1", messages := [{ role := "user", content := "what is the time" }] }
    { arrival := 0, supersededAt := none,
      cont := { rands := [0], controllerId := 1, upstream := .stream [] 5000 true,
                interference := none } }
    _ rfl (by decide) rfl (by decide) (by decide)
  exact ⟨hc.2.1, hc.2.2.2.1, hc.2.2.2.2⟩

theorem pickIdx_ne_last (lastIdx : Int) (len : Nat) (rands : List Nat) (i : Nat)
    (h : pickIdx lastIdx len rands = some i) (hlen : 1 < len) : (i : Int) ≠ lastIdx := by
  induction rands with
  | nil => exact Option.noConfusion h
  | cons r rest ih =>
    unfold pickIdx at h
    by_cases hc : ((((r % len : Nat) : Int) == lastIdx) && decide (len > 1)) = true
    · rw [if_pos hc] at h
      exact ih h
    · rw [if_neg hc] at h
      simp only [Option.some.injEq] at h
      subst h
      intro hcon
      apply hc
      simp only [Bool.and_eq_true, beq_iff_eq, decide_eq_true_eq]
      exact ⟨hcon, hlen⟩

theorem pickIdx_lt (lastIdx : Int) (len : Nat) (rands : List Nat) (i : Nat)
    (h : pickIdx lastIdx len rands = some i) (hlen : 0 < len) : i < len := by
  induction rands with
  | nil => exact Option.noConfusion h
  | cons r rest ih =>
    unfold pickIdx at h
    by_cases hc : ((((r % len : Nat) : Int) == lastIdx) && decide (len > 1)) = true
    · rw [if_pos hc] at h
      exact ih h
    · rw [if_neg hc] at h
      simp only [Option.some.injEq] at h
      subst h
      exact Nat.mod_lt _ hlen

theorem getContextualPhrases_inv (lastIdx : Int) (rands : List Nat) (u : String) (r : PickResult)
    (h : getContextualPhrases lastIdx rands u = some r) :
    pickIdx lastIdx (matchCategory u).initial.length rands = some r.idx ∧
    r.initial = (matchCategory u).initial.getD r.idx "" := by
  unfold getContextualPhrases at h
  simp only at h
  cases hp : pickIdx lastIdx (matchCategory u).initial.length rands with
  | none =>
    rw [hp] at h
    simp only at h
    exact Option.noConfusion h
  | some idx =>
    rw [hp] at h
    simp only [Option.some.injEq] at h
    subst h
    exact ⟨rfl, rfl⟩

theorem matchCategory_initial_nodup (u : String) : ((matchCategory u).initial).Nodup := by
  unfold matchCategory
  simp only
  cases hf : PHRASE_CATEGORIES.find?
      (fun p => p.1 != "fallback" && p.2.keywords.any (fun kw => strContains (strLower u) kw)) with
  | none => decide
  | some p =>
    have hmem : p ∈ PHRASE_CATEGORIES := List.mem_of_find?_eq_some hf
    have hall : ∀ q ∈ PHRASE_CATEGORIES, q.2.initial.Nodup := by decide
    exact hall p hmem

theorem getD_ne_of_nodup (l : List String) (i j : Nat) (hi : i < l.length) (hj : j < l.length)
    (hij : i ≠ j) (hnd : l.Nodup) : l.getD i "" ≠ l.getD j "" := by
  intro hcon
  rw [List.getD_eq_getElem?_getD, List.getD_eq_getElem?_getD] at hcon
  rw [List.getElem?_eq_getElem hi, List.getElem?_eq_getElem hj] at hcon
  simp only [Option.getD_some] at hcon
  exact hij (hnd.getElem_inj_iff.mp hcon)

/-- C7 counterexample: the no-repeat guard compares only the process-global
last index, so across two different categories the same phrase text can
repeat.  A first selection for "note this" (notes category, index 0) yields
"On it... "; the next selection for "open the browser" (browser category,
three initial phrases, index 2 allowed by the guard) yields "On it... "
again — equal to the most recently returned initial phrase. -/
theorem C7_no_repeat_counterexample :
    (getContextualPhrases (-1) [0] "note this").map (fun p => p.initial) = some "On it... " ∧
    (getContextualPhrases (-1) [0] "note this").map (fun p => p.idx) = some 0 ∧
    (getContextualPhrases 0 [2] "open the browser").map (fun p => p.initial) = some "On it... " ∧
    1 < (matchCategory "open the browser").initial.length := by
  refine ⟨?_, ?_, ?_, ?_⟩ <;> decide

/-- C7 amended: the guard of `getContextualPhrases` guarantees only that the
chosen index differs from the most recently chosen index whenever the matched
category has at least two initial phrases; consequently two consecutive
selections that match the same category yield different phrases, but across
different categories the same phrase text may repeat. -/
theorem C7_no_repeat_amended (lastIdx : Int) (rs1 rs2 : List Nat) (u1 u2 : String)
    (r1 r2 : PickResult)
    (h1 : getContextualPhrases lastIdx rs1 u1 = some r1)
    (h2 : getContextualPhrases (r1.idx : Int) rs2 u2 = some r2)
    (hlen : 1 < (matchCategory u2).initial.length) :
    (r2.idx : Int) ≠ (r1.idx : Int) ∧
    (matchCategory u1 = matchCategory u2 → r2.initial ≠ r1.initial) := by
  obtain ⟨hp2, hi2⟩ := getContextualPhrases_inv _ _ _ _ h2
  have hne : (r2.idx : Int) ≠ (r1.idx : Int) := pickIdx_ne_last _ _ _ _ hp2 hlen
  refine ⟨hne, ?_⟩
  intro hsame
  obtain ⟨hp1, hi1⟩ := getContextualPhrases_inv _ _ _ _ h1
  have hlen1 : 1 < (matchCategory u1).initial.length := by rw [hsame]; exact hlen
  have hb1 : r1.idx < (matchCategory u1).initial.length :=
    pickIdx_lt _ _ _ _ hp1 (by omega)
  have hb2 : r2.idx < (matchCategory u2).initial.length :=
    pickIdx_lt _ _ _ _ hp2 (by omega)
  have hb1' : r1.idx < (matchCategory u2).initial.length := by rw [← hsame]; exact hb1
  have hidx : r2.idx ≠ r1.idx := by
    intro hcon
    exact hne (by rw [hcon])
  rw [hi1, hi2, hsame]
  exact getD_ne_of_nodup _ _ _ hb2 hb1' hidx (matchCategory_initial_nodup u2)

theorem C7_no_repeat_amended_witness :
    ((1 : Nat) : Int) ≠ ((0 : Nat) : Int) ∧
    (matchCategory "note this" = matchCategory "note this" →
      ({ initial := "Writing that down... ",
         keepAlive := ["Still working on it... ", "Almost done... "], idx := 1 } : PickResult).initial ≠
      ({ initial := "On it... ",
         keepAlive := ["Still working on it... ", "Almost done... "], idx := 0 } : PickResult).initial) :=
  C7_no_repeat_amended (-1) [0] [1] "note this" "note this"
    { initial := "On it... ", keepAlive := ["Still working on it... ", "Almost done... "], idx := 0 }
    { initial := "Writing that down... ", keepAlive := ["Still working on it... ", "Almost done... "], idx := 1 }
    (by decide) (by decide) (by decide)

theorem find?_replaceFirstUser (l : List Msg) (c : String) (m : Msg)
    (h : l.find? (fun x => x.role == "user") = some m) :
    (replaceFirstUser l c).find? (fun x => x.role == "user") = some { m with content := c } := by
  induction l with
  | nil => exact Option.noConfusion h
  | cons a t ih =>
    by_cases ha : (a.role == "user") = true
    · simp only [List.find?, ha] at h
      simp only [Option.some.injEq] at h
      subst h
      simp only [replaceFirstUser, ha, if_pos]
      simp only [List.find?, ha]
    · have haf : (a.role == "user") = false := by simpa using ha
      simp only [List.find?, haf] at h
      simp only [replaceFirstUser, haf, Bool.false_eq_true, if_false]
      simp only [List.find?, haf]
      exact ih h

theorem lastUserMsg_of_nonsilent (b : Body) (hs : silenceCond (userTextOf b) = false) :
    ∃ m, lastUserMsg b.messages = some m := by
  cases hl : lastUserMsg b.messages with
  | some m => exact ⟨m, rfl⟩
  | none =>
    exfalso
    have : userTextOf b = "" := by
      unfold userTextOf
      rw [hl]
      rfl
    rw [this] at hs
    exact absurd hs (by decide)

theorem lastUser_setLastUserContent (b : Body) (c : String)
    (hs : silenceCond (userTextOf b) = false) :
    (lastUserMsg (setLastUserContent b.messages c)).map (fun m => m.content) = some c := by
  obtain ⟨m, hm⟩ := lastUserMsg_of_nonsilent b hs
  unfold lastUserMsg at hm ⊢
  unfold setLastUserContent
  rw [List.reverse_reverse]
  rw [find?_replaceFirstUser _ c m hm]
  rfl

theorem continueTurn_fetches (st : ServerState) (body : Body) (s u : String) (tSet : Nat)
    (env : ContEnv) (rB : TurnResult) (h : continueTurn st body s u tSet env = some rB) :
    rB.fetches = [] ∨
    rB.fetches = [{ time := tSet
                    messages := setLastUserContent body.messages (u ++ VOICE_HINT)
                    model := "openclaw:main" }] := by
  simp only [continueTurn] at h
  by_cases hc : truthyOpt (getCachedResponse st.recentRequests
      (getRequestHash (setLastUserContent body.messages (u ++ VOICE_HINT))) tSet) = true
  · rw [hc, if_pos rfl] at h
    simp only [Option.some.injEq] at h
    left
    rw [← h]
  · have hcf : truthyOpt (getCachedResponse st.recentRequests
        (getRequestHash (setLastUserContent body.messages (u ++ VOICE_HINT))) tSet) = false := by
      simpa using hc
    rw [hcf] at h
    rw [if_neg (by simp)] at h
    cases hp : getContextualPhrases st.lastInitialIdx env.rands u with
    | none =>
      rw [hp] at h
      exact Option.noConfusion h
    | some pick =>
      rw [hp] at h
      simp only [Option.some.injEq] at h
      right
      rw [← h]
      cases hcase : env.upstream <;> simp [runUpstream, hcase]

/-- C1: for any two POSTs to the same session, both non-silent, the second
arriving within the first one's 1500 ms debounce window, at most one upstream
fetch is issued and any fetch issued carries the later request's text (with
the voice hint); the earlier request's response closes with a single-space
chunk followed by `[DONE]`; and an upstream fetch already in flight for the
session is aborted by the incoming turn's prologue strictly before that turn
arms its debounce. -/
theorem C1_pair_one_upstream (st0 : ServerState) (tA tB : Nat) (bodyA bodyB : Body)
    (envB : ContEnv) (r : PairResult)
    (hrun : runPair st0 tA bodyA tB bodyB envB = some r) :
    r.fetches.length ≤ 1 ∧
    (∀ f ∈ r.fetches,
      (lastUserMsg f.messages).map (fun m => m.content) = some (userTextOf bodyB ++ VOICE_HINT)) ∧
    r.eventsA = [(tB, Frame.chunk ("chatcmpl-superseded-" ++ toString tB) " "), (tB, Frame.done)] ∧
    (∀ c, mapGet st0.inFlight (getSessionId bodyA) = some c →
      ∃ pre post, r.actsA = pre ++ ProAction.armDebounce tA :: post ∧ ProAction.abortFetch c ∈ pre) := by
  unfold runPair at hrun
  by_cases hses : (getSessionId bodyB != getSessionId bodyA) = true
  · rw [if_pos hses] at hrun
    exact Option.noConfusion hrun
  · rw [if_neg hses] at hrun
    by_cases hsil : (silenceCond (userTextOf bodyA) || silenceCond (userTextOf bodyB)) = true
    · rw [if_pos hsil] at hrun
      exact Option.noConfusion hrun
    · rw [if_neg hsil] at hrun
      by_cases htime : (!(decide (tA ≤ tB) && decide (tB < tA + DEBOUNCE_MS))) = true
      · rw [if_pos htime] at hrun
        exact Option.noConfusion hrun
      · rw [if_neg htime] at hrun
        rw [Option.map_eq_some'] at hrun
        obtain ⟨rB, hrB, hmk⟩ := hrun
        have hsilB : silenceCond (userTextOf bodyB) = false := by
          simp only [Bool.or_eq_true] at hsil
          push_neg at hsil
          simpa using hsil.2
        have hfet : r.fetches = rB.fetches := by rw [← hmk]
        have hacts : r.actsA = (prologue st0 (getSessionId bodyA) (userTextOf bodyA) tA).actions := by
          rw [← hmk]
        have heva : r.eventsA = [(tB, Frame.chunk ("chatcmpl-superseded-" ++ toString tB) " ")
            , (tB, Frame.done)] := by
          rw [← hmk]
        have hfcases := continueTurn_fetches _ bodyB (getSessionId bodyA) (userTextOf bodyB)
          (tB + DEBOUNCE_MS) envB rB hrB
        refine ⟨?_, ?_, heva, ?_⟩
        · rw [hfet]
          rcases hfcases with hf | hf <;> rw [hf] <;> simp
        · intro f hfmem
          rw [hfet] at hfmem
          rcases hfcases with hf | hf
          · rw [hf] at hfmem
            exact absurd hfmem (List.not_mem_nil f)
          · rw [hf] at hfmem
            simp only [List.mem_singleton] at hfmem
            subst hfmem
            exact lastUser_setLastUserContent bodyB (userTextOf bodyB ++ VOICE_HINT) hsilB
        · intro c habort
          rw [hacts]
          unfold prologue
          simp only [habort]
          cases hpend : mapGet st0.pending (getSessionId bodyA) with
          | none =>
            simp only [hpend]
            refine ⟨[ProAction.logUser (userTextOf bodyA), ProAction.abortFetch c], [], ?_, ?_⟩
            · rfl
            · simp
          | some tag =>
            simp only [hpend]
            refine ⟨[ProAction.logUser (userTextOf bodyA), ProAction.abortFetch c,
                     ProAction.supersedePending tag], [], ?_, ?_⟩
            · rfl
            · simp

theorem C1_pair_one_upstream_witness :
    ((runPair { inFlight := [("u1", 7)], pending := [], recentRequests := [], conversations := [], lastInitialIdx := -1 }
        0 { user := some "u1", messages := [{ role := "user", content := "Tell me what" }] }
        400 { user := some "u1", messages := [{ role := "user", content := "Tell me what you can do" }] }
        { rands := [0], controllerId := 1, upstream := .stream [] 5000 true,
          interference := none }).getD blankPairResult).fetches.length ≤ 1 ∧
    ((runPair { inFlight := [("u1", 7)], pending := [], recentRequests := [], conversations := [], lastInitialIdx := -1 }
        0 { user := some "u1", messages := [{ role := "user", content := "Tell me what" }] }
        400 { user := some "u1", messages := [{ role := "user", content := "Tell me what you can do" }] }
        { rands := [0], controllerId := 1, upstream := .stream [] 5000 true,
          interference := none }).getD blankPairResult).eventsA =
      [(400, Frame.chunk "chatcmpl-superseded-400" " "), (400, Frame.done)] ∧
    ProAction.abortFetch 7 ∈
      ((runPair { inFlight := [("u1", 7)], pending := [], recentRequests := [], conversations := [], lastInitialIdx := -1 }
        0 { user := some "u1", messages := [{ role := "user", content := "Tell me what" }] }
        400 { user := some "u1", messages := [{ role := "user", content := "Tell me what you can do" }] }
        { rands := [0], controllerId := 1, upstream := .stream [] 5000 true,
          interference := none }).getD blankPairResult).actsA := by
  have hr : runPair
      { inFlight := [("u1", 7)], pending := [], recentRequests := [], conversations := [], lastInitialIdx := -1 }
      0 { user := some "u1", messages := [{ role := "user", content := "Tell me what" }] }
      400 { user := some "u1", messages := [{ role := "user", content := "Tell me what you can do" }] }
      { rands := [0], controllerId := 1, upstream := .stream [] 5000 true, interference := none } =
      some ((runPair
      { inFlight := [("u1", 7)], pending := [], recentRequests := [], conversations := [], lastInitialIdx := -1 }
      0 { user := some "u1", messages := [{ role := "user", content := "Tell me what" }] }
      400 { user := some "u1", messages := [{ role := "user", content := "Tell me what you can do" }] }
      { rands := [0], controllerId := 1, upstream := .stream [] 5000 true,
        interference := none }).getD blankPairResult) := rfl
  have hc := C1_pair_one_upstream
    { inFlight := [("u1", 7)], pending := [], recentRequests := [], conversations := [], lastInitialIdx := -1 }
    0 400
    { user := some "u1", messages := [{ role := "user", content := "Tell me what" }] }
    { user := some "u1", messages := [{ role := "user", content := "Tell me what you can do" }] }
    { rands := [0], controllerId := 1, upstream := .stream [] 5000 true, interference := none }
    ((runPair
      { inFlight := [("u1", 7)], pending := [], recentRequests := [], conversations := [], lastInitialIdx := -1 }
      0 { user := some "u1", messages := [{ role := "user", content := "Tell me what" }] }
      400 { user := some "u1", messages := [{ role := "user", content := "Tell me what you can do" }] }
      { rands := [0], controllerId := 1, upstream := .stream [] 5000 true,
        interference := none }).getD blankPairResult)
    hr
  obtain ⟨pre, post, heq, hmem⟩ := hc.2.2.2 7 (by decide)
  refine ⟨hc.1, hc.2.2.1, ?_⟩
  rw [heq]
  exact List.mem_append_left _ hmem

end StarkProxy
